import Mathlib

/-!
Verification development for the `iris` voice-assistant orchestrator.

The Python sources (`src/iris/llm.py`, `src/iris/functions.py`,
`src/iris/computer.py`) are shallowly embedded below:

* Python `str` values are modelled as `List Char`; decoded JSON strings are
  modelled as `List Nat` (lists of code points), because Python strings may
  carry lone surrogates that `Char` cannot represent.
* `json.loads` is modelled by a recursive-descent parser with an explicit
  fuel argument (always called with fuel larger than the input length, so
  the fuel-exhausted branch is unreachable).
* Exceptions are modelled by explicit outcome values; the two control
  signals `EnterInactiveMode` and `SystemExit` are distinguished
  constructors.
-/

set_option linter.unusedVariables false

namespace Iris

/-- Python `str` modelled as a list of characters. -/
abbrev Str := List Char

/-- Decoded JSON strings: lists of Unicode code points. -/
abbrev CP := List Nat

/-- Code points of a Lean string literal. -/
def cp (s : String) : CP := s.toList.map Char.toNat

/-- Character list of a Lean string literal. -/
def ls (s : String) : Str := s.toList

/-- Model of Python `str.isspace` / the character class of `re` whitespace
for `str` patterns (ASCII whitespace, the C1 controls Python treats as
space, and the Unicode space separators). -/
def pyIsSpace (c : Char) : Bool :=
  c.toNat ∈ [9, 10, 11, 12, 13, 28, 29, 30, 31, 32, 0x85, 0xa0, 0x1680,
    0x2000, 0x2001, 0x2002, 0x2003, 0x2004, 0x2005, 0x2006, 0x2007, 0x2008,
    0x2009, 0x200a, 0x2028, 0x2029, 0x202f, 0x205f, 0x3000]

/-- Model of Python `str.strip()`: drop leading and trailing whitespace. -/
def pyStrip (s : Str) : Str :=
  ((s.dropWhile pyIsSpace).reverse.dropWhile pyIsSpace).reverse

/-- Helper for collapsing whitespace runs; the flag records whether the
previous character belonged to a whitespace run already emitted. -/
def collapseAux : Bool → Str → Str
  | _, [] => []
  | inRun, c :: cs =>
    if pyIsSpace c then
      if inRun then collapseAux true cs else ' ' :: collapseAux true cs
    else c :: collapseAux false cs

/-- Model of `re.sub(r"\s+", " ", s).strip()` (the final clean-up in
`llm.parse_response`). -/
def collapseWs (s : Str) : Str := pyStrip (collapseAux false s)

/-- Helper for `str.split()`: accumulates the current token reversed. -/
def splitAux : Str → Str → List Str
  | [], acc => if acc.isEmpty then [] else [acc.reverse]
  | c :: cs, acc =>
    if pyIsSpace c then
      if acc.isEmpty then splitAux cs [] else acc.reverse :: splitAux cs []
    else splitAux cs (c :: acc)

/-- Model of Python `str.split()` with no argument: split on whitespace
runs, discarding empty tokens. -/
def pySplit (s : Str) : List Str := splitAux s []

/-- Model of Python `str.lower()` (ASCII model; the utterances handled by
the loop are ASCII transcriptions). -/
def pyLower (s : Str) : Str := s.map Char.toLower

/-- The characters of Python `string.punctuation`. -/
def punctChars : Str :=
  ls "!\"#$%&\x27()*+,-./:;<=>?@[\\]^_\x60\x7b|\x7d~"

/-- Model of `text.translate(str.maketrans("", "", string.punctuation))`:
delete every punctuation character. -/
def stripPunct (s : Str) : Str := s.filter (fun c => ¬ c ∈ punctChars)

/-- The input normalization performed at the top of each `audio_loop`
cycle: `text.strip().lower()` followed by punctuation removal. -/
def normalizeUtterance (s : Str) : Str := stripPunct (pyLower (pyStrip s))

/-- First occurrence removal: model of `speech.replace(match, "", 1)`. -/
def removeOnce (old : Str) : Str → Str
  | [] => []
  | c :: cs =>
    if old.isPrefixOf (c :: cs) then (c :: cs).drop old.length
    else c :: removeOnce old cs

/-! ## JSON values and a model of `json.loads` -/

/-- Parsed JSON values.  Numbers keep their raw matched token (the claims
never depend on numeric value identity). -/
inductive JVal where
  | obj : List (CP × JVal) → JVal
  | arr : List JVal → JVal
  | str : CP → JVal
  | num : Str → JVal
  | bool : Bool → JVal
  | null : JVal
  | nan : JVal
  | inf : JVal
  | ninf : JVal
deriving Repr

/-- JSON whitespace skipping (`json.decoder` only treats space, tab,
newline and carriage return as whitespace). -/
def jsonWsDrop (s : Str) : Str :=
  s.dropWhile (fun c => c ∈ [' ', '\t', '\n', '\r'])

/-- Leading decimal digits of a character list. -/
def digitSpan (s : Str) : Str × Str :=
  (s.takeWhile Char.isDigit, s.dropWhile Char.isDigit)

/-- Integer part of a JSON number: `0` or a nonzero digit followed by
digits. -/
def parseIntPart : Str → Option (Str × Str)
  | [] => none
  | c :: rest =>
    if c = '0' then some (['0'], rest)
    else if c.isDigit then
      let (ds, r) := digitSpan rest
      some (c :: ds, r)
    else none

/-- Model of the `json` number grammar
`(-?(0|[1-9]\d*))(\.\d+)?([eE][-+]?\d+)?`; returns the raw token and the
rest of the input. -/
def parseNumber (s : Str) : Option (Str × Str) :=
  let (neg, s1) := match s with
    | '-' :: r => ((['-'] : Str), r)
    | _ => (([] : Str), s)
  match parseIntPart s1 with
  | none => none
  | some (ip, s2) =>
    let (frac, s3) := match s2 with
      | '.' :: r =>
        let (ds, r2) := digitSpan r
        if ds.isEmpty then (([] : Str), s2) else ('.' :: ds, r2)
      | _ => (([] : Str), s2)
    let (ex, s4) := match s3 with
      | e :: r =>
        if e = 'e' ∨ e = 'E' then
          let (sgn, r1) := match r with
            | '+' :: r2 => ((['+'] : Str), r2)
            | '-' :: r2 => ((['-'] : Str), r2)
            | _ => (([] : Str), r)
          let (ds, r2) := digitSpan r1
          if ds.isEmpty then (([] : Str), s3) else (e :: (sgn ++ ds), r2)
        else (([] : Str), s3)
      | _ => (([] : Str), s3)
    some (neg ++ ip ++ frac ++ ex, s4)

/-- Value of a hexadecimal digit. -/
def hexVal (c : Char) : Option Nat :=
  if '0' ≤ c ∧ c ≤ '9' then some (c.toNat - '0'.toNat)
  else if 'a' ≤ c ∧ c ≤ 'f' then some (c.toNat - 'a'.toNat + 10)
  else if 'A' ≤ c ∧ c ≤ 'F' then some (c.toNat - 'A'.toNat + 10)
  else none

/-- Four hex digits of a `\uXXXX` escape. -/
def parse4Hex : Str → Option (Nat × Str)
  | a :: b :: c :: d :: rest =>
    match hexVal a, hexVal b, hexVal c, hexVal d with
    | some x, some y, some z, some w => some (((x * 16 + y) * 16 + z) * 16 + w, rest)
    | _, _, _, _ => none
  | _ => none

/-- Single-character JSON escapes. -/
def escChar (c : Char) : Option Nat :=
  if c = '"' then some 34
  else if c = '\\' then some 92
  else if c = '/' then some 47
  else if c = 'b' then some 8
  else if c = 'f' then some 12
  else if c = 'n' then some 10
  else if c = 'r' then some 13
  else if c = 't' then some 9
  else none

/-- Body of a JSON string after the opening quote (model of
`json.decoder.py_scanstring` in strict mode): control characters are
rejected, `\uXXXX` escapes are decoded, and valid surrogate pairs are
combined (lone surrogates are kept as code points). -/
def strBody : Nat → Str → Option (CP × Str)
  | 0, _ => none
  | _, [] => none
  | fuel + 1, c :: cs =>
    if c = '"' then some ([], cs)
    else if c = '\\' then
      match cs with
      | 'u' :: r =>
        (match parse4Hex r with
         | some (h, r2) =>
           if 0xd800 ≤ h ∧ h ≤ 0xdbff then
             match r2 with
             | '\\' :: 'u' :: r3 =>
               (match parse4Hex r3 with
                | some (l, r4) =>
                  if 0xdc00 ≤ l ∧ l ≤ 0xdfff then
                    (strBody fuel r4).map
                      (fun p => ((0x10000 + (h - 0xd800) * 0x400 + (l - 0xdc00)) :: p.1, p.2))
                  else (strBody fuel r2).map (fun p => (h :: p.1, p.2))
                | none => (strBody fuel r2).map (fun p => (h :: p.1, p.2)))
             | _ => (strBody fuel r2).map (fun p => (h :: p.1, p.2))
           else (strBody fuel r2).map (fun p => (h :: p.1, p.2))
         | none => none)
      | e :: r =>
        (match escChar e with
         | some ec => (strBody fuel r).map (fun p => (ec :: p.1, p.2))
         | none => none)
      | [] => none
    else if c.toNat < 0x20 then none
    else (strBody fuel cs).map (fun p => (c.toNat :: p.1, p.2))

/-- A JSON string, input positioned after the opening quote. -/
def parseJStr (s : Str) : Option (CP × Str) := strBody (s.length + 1) s

/-- Python `dict` insertion: an existing key keeps its position and gets
the new value; a new key is appended. -/
def objInsert (kvs : List (CP × JVal)) (k : CP) (v : JVal) : List (CP × JVal) :=
  if kvs.any (fun p => p.1 == k) then
    kvs.map (fun p => if p.1 == k then (k, v) else p)
  else kvs ++ [(k, v)]

mutual

/-- Model of the `json` value scanner.  The fuel strictly exceeds the
input length at every top-level call, so the `0` branch is unreachable. -/
def parseValue : Nat → Str → Option (JVal × Str)
  | 0, _ => none
  | fuel + 1, s =>
    match s with
    | [] => none
    | '\x7b' :: cs =>
      (match jsonWsDrop cs with
       | '\x7d' :: r => some (.obj [], r)
       | cs1 => parseMembers fuel cs1 [])
    | '[' :: cs =>
      (match jsonWsDrop cs with
       | ']' :: r => some (.arr [], r)
       | cs1 => parseElems fuel cs1 [])
    | '"' :: cs => (parseJStr cs).map (fun p => (JVal.str p.1, p.2))
    | 't' :: 'r' :: 'u' :: 'e' :: r => some (.bool true, r)
    | 'f' :: 'a' :: 'l' :: 's' :: 'e' :: r => some (.bool false, r)
    | 'n' :: 'u' :: 'l' :: 'l' :: r => some (.null, r)
    | 'N' :: 'a' :: 'N' :: r => some (.nan, r)
    | '-' :: 'I' :: 'n' :: 'f' :: 'i' :: 'n' :: 'i' :: 't' :: 'y' :: r => some (.ninf, r)
    | 'I' :: 'n' :: 'f' :: 'i' :: 'n' :: 'i' :: 't' :: 'y' :: r => some (.inf, r)
    | s' => (parseNumber s').map (fun p => (JVal.num p.1, p.2))

/-- Object members after the opening brace and leading whitespace. -/
def parseMembers : Nat → Str → List (CP × JVal) → Option (JVal × Str)
  | 0, _, _ => none
  | fuel + 1, s, acc =>
    match s with
    | '"' :: cs =>
      (match parseJStr cs with
       | none => none
       | some (k, r1) =>
         match jsonWsDrop r1 with
         | ':' :: r3 =>
           (match parseValue fuel (jsonWsDrop r3) with
            | none => none
            | some (v, r4) =>
              let acc1 := objInsert acc k v
              match jsonWsDrop r4 with
              | ',' :: r6 => parseMembers fuel (jsonWsDrop r6) acc1
              | '\x7d' :: r6 => some (.obj acc1, r6)
              | _ => none)
         | _ => none)
    | _ => none

/-- Array elements after the opening bracket and leading whitespace. -/
def parseElems : Nat → Str → List JVal → Option (JVal × Str)
  | 0, _, _ => none
  | fuel + 1, s, acc =>
    match parseValue fuel s with
    | none => none
    | some (v, r1) =>
      match jsonWsDrop r1 with
      | ',' :: r2 => parseElems fuel (jsonWsDrop r2) (acc ++ [v])
      | ']' :: r2 => some (.arr (acc ++ [v]), r2)
      | _ => none

end

/-- Model of `json.loads`: parse one value and require only whitespace to
remain. -/
def jsonLoads (s : Str) : Option JVal :=
  match parseValue (s.length + 1) (jsonWsDrop s) with
  | some (v, rest) => if (jsonWsDrop rest).isEmpty then some v else none
  | none => none

/-- The code points of the key `"function"`. -/
def funcKey : CP := cp "function"

/-- Model of `key in data` for a parsed JSON value known to be a dict. -/
def hasKey (v : JVal) (k : CP) : Bool :=
  match v with
  | .obj kvs => kvs.any (fun p => p.1 == k)
  | _ => false

/-- Key lookup in a parsed JSON object. -/
def getKey (v : JVal) (k : CP) : Option JVal :=
  match v with
  | .obj kvs => (kvs.find? (fun p => p.1 == k)).map (·.2)
  | _ => none

/-! ## The brace-block scanner of `llm.parse_response`

The regular expression in the source is
`(\{[^{}]*(?:\{[^{}]*\}[^{}]*)*\})`.  Because its three character classes
(`{`, `}`, everything else) are disjoint, matching is deterministic: after
greedily consuming non-brace characters the next character forces either a
one-level nested block, the closing brace, or failure of the whole
attempt.  `re.findall` restarts the scan one character later on failure
and after the match on success. -/

/-- Non-brace characters (the class `[^{}]`). -/
def isNB (c : Char) : Bool := c ≠ '\x7b' && c ≠ '\x7d'

/-- Match the remainder of a brace block given input positioned just after
the opening `\x7b`; returns the matched tail (up to and including the
closing brace) and the rest of the input. -/
def matchAfterOpen : Nat → Str → Option (Str × Str)
  | 0, _ => none
  | fuel + 1, cs =>
    let plain := cs.takeWhile isNB
    match cs.dropWhile isNB with
    | '\x7d' :: rs => some (plain ++ ['\x7d'], rs)
    | '\x7b' :: rs =>
      let inner := rs.takeWhile isNB
      (match rs.dropWhile isNB with
       | '\x7d' :: rs2 =>
         (match matchAfterOpen fuel rs2 with
          | some (tail, rest) =>
            some (plain ++ '\x7b' :: (inner ++ '\x7d' :: tail), rest)
          | none => none)
       | _ => none)
    | _ => none

/-- Model of `re.findall` with the pattern above. -/
def findAllAux : Nat → Str → List Str
  | 0, _ => []
  | _, [] => []
  | fuel + 1, c :: cs =>
    if c = '\x7b' then
      match matchAfterOpen (cs.length + 1) cs with
      | some (content, rest) => ('\x7b' :: content) :: findAllAux fuel rest
      | none => findAllAux fuel cs
    else findAllAux fuel cs

/-- All brace-block candidate substrings of a response, left to right. -/
def findAll (s : Str) : List Str := findAllAux (s.length + 1) s

/-- One removal step of `parse_response`:
`speech.replace(match, "", 1).strip()`. -/
def stripOnce (m speech : Str) : Str := pyStrip (removeOnce m speech)

/-- The fold step applied to each candidate match: parse it as JSON; when
it is an object with a `"function"` key record the call and strip the
substring once; otherwise leave the speech untouched. -/
def respStep (p : Str × List JVal) (m : Str) : Str × List JVal :=
  match jsonLoads m with
  | some data =>
    if hasKey data funcKey then (stripOnce m p.1, p.2 ++ [data]) else p
  | none => p

/-- Model of `llm.parse_response`: split a backend response into spoken
text and the list of parsed function-call objects. -/
def parseResponse (response : Str) : Str × List JVal :=
  let r := (findAll response).foldl respStep (response, [])
  (collapseWs r.1, r.2)

/-- Whether a candidate substring is recorded as a function call: it
parses as JSON and the parsed object has a `"function"` key (a failed
parse defaults to `null`, which has no keys). -/
def IsFnCallB (m : Str) : Bool := hasKey ((jsonLoads m).getD .null) funcKey

/-- The parsed value of a recorded call. -/
def parsedOf (m : Str) : JVal := (jsonLoads m).getD .null

/-- The cumulative effect on the speech text of stripping a list of
matches, in order. -/
def applyCalls (ms : List Str) (sp : Str) : Str :=
  ms.foldl (fun s m => stripOnce m s) sp

/-- A well-formed function-call JSON object substring: starts with an
opening brace, ends with a closing brace, and parses as a JSON object
with a `"function"` key. -/
def isFnObjStr (m : Str) : Bool :=
  match m with
  | '\x7b' :: _ => (m.getLast? == some '\x7d') && IsFnCallB m
  | _ => false

/-- Number of positions `(i, l)` at which a well-formed function-call
JSON object occurs as a substring. -/
def fnObjOccCount (s : Str) : Nat :=
  ((List.range (s.length + 1)).flatMap (fun i =>
    (List.range (s.length + 1)).filter (fun l =>
      decide (i + l ≤ s.length) && isFnObjStr ((s.drop i).take l)))).length

/-! ## `computer._edit_distance` and `computer.is_wake_word`

The Python function fills a `(len(a)+1) × (len(b)+1)` table with the
optimal-string-alignment recurrence (deletion, insertion, substitution,
and adjacent transposition, each cost 1).  `edD` is that recurrence; the
fuel decreases by exactly one per level and every top-level call supplies
more fuel than `i + j`, so the fuel-exhausted branch is unreachable. -/

def edD (a b : Str) : Nat → Nat → Nat → Nat
  | _, 0, j => j
  | _, i + 1, 0 => i + 1
  | 0, _ + 1, _ + 1 => 0
  | fuel + 1, i + 1, j + 1 =>
    let cost : Nat := if a.get? i = b.get? j then 0 else 1
    let base := min (min (edD a b fuel i (j + 1) + 1) (edD a b fuel (i + 1) j + 1))
      (edD a b fuel i j + cost)
    if 1 ≤ i ∧ 1 ≤ j ∧ a.get? i = b.get? (j - 1) ∧ a.get? (i - 1) = b.get? j then
      min base (edD a b fuel (i - 1) (j - 1) + 1)
    else base

/-- Model of `computer._edit_distance`. -/
def edit_distance (a b : Str) : Nat :=
  edD a b (a.length + b.length + 1) a.length b.length

/-- Model of `computer.is_wake_word`, with the assistant name
(`llm.ASSISTANT_NAME`) passed explicitly. -/
def is_wake_word (assistantName : Str) (text : Str) : Bool :=
  let name := pyLower assistantName
  let words := pySplit (pyLower text)
  if words.any (fun w => edit_distance w name ≤ 1) then true
  else if (words.contains (ls "wake")) && (words.contains (ls "up")) then true
  else false

/-! ## The watchdog wrapper `computer._listen_with_watchdog`

The blocking operation runs on a separate thread; the caller joins in
one-second slices, counting `elapsed` and reporting the remaining budget,
for at most `watchdog = timeout + phrase_limit + 10` seconds.  The
operation is modelled by its completion time (`none` = never completes)
and by the outcome it produces on completion (a value, or a raised
exception that the wrapper re-raises only after the polling loop ends). -/

/-- Outcome of a watchdog-wrapped call. -/
inductive WdResult (α : Type) where
  | ok : α → WdResult α
  | hung : WdResult α
  | opRaised : CP → WdResult α
deriving Repr, DecidableEq

/-- Whether the operation has finished within `t` seconds, given its
completion time. -/
def doneBy (duration : Option Nat) (t : Nat) : Bool :=
  match duration with
  | some d => d ≤ t
  | none => false

/-- The polling loop: `remaining` counts loop iterations still allowed,
`elapsed` is the Python `elapsed` counter.  Returns the number of status
callbacks issued and whether the loop broke out early because the thread
finished. -/
def pollLoop (duration : Option Nat) : Nat → Nat → Nat × Bool
  | 0, _ => (0, false)
  | remaining + 1, elapsed =>
    if doneBy duration (elapsed + 1) then (0, true)
    else
      let r := pollLoop duration remaining (elapsed + 1)
      (r.1 + 1, r.2)

/-- Model of `_listen_with_watchdog`: the operation takes
`duration` seconds (`none` = hangs forever) and, on completion, yields
`outcome` (`Sum.inl` a value, `Sum.inr` a raised message).  Returns the
wrapper's result together with the number of status callbacks issued. -/
def listenWithWatchdog {α : Type} (timeout phraseLimit : Nat)
    (duration : Option Nat) (outcome : Sum α CP) : WdResult α × Nat :=
  let watchdog := timeout + phraseLimit + 10
  let r := pollLoop duration watchdog 0
  if r.2 = false ∧ doneBy duration watchdog = false then (.hung, r.1)
  else
    match outcome with
    | .inr e => (.opRaised e, r.1)
    | .inl v => (.ok v, r.1)

/-! ## `functions.py`: exceptions, registry and dispatcher

Python exceptions are modelled by explicit outcomes.  `EnterInactiveMode`
and `SystemExit` are the two control signals; every other exception is
`other` with its `str(e)` message. -/

inductive PyExc where
  | enterSleep : PyExc
  | terminate : PyExc
  | other : CP → PyExc
deriving Repr, DecidableEq

/-- Result of running a piece of Python code: a value or a raised
exception. -/
inductive POut (α : Type) where
  | val : α → POut α
  | exc : PyExc → POut α
deriving Repr, DecidableEq

/-- The module-level mutable state of `functions.py` that the claims
depend on (`VISUAL_MODE`, `MUTED`, `PASSIVE_MODE`, `DICTATION_MODE`, and
the dictation file bookkeeping). -/
structure GState where
  visual : Bool := false
  muted : Bool := false
  passive : Bool := false
  dictation : Bool := false
  dictOpen : Bool := false
  dictPathSet : Bool := false
  dictLines : Nat := 0
deriving Repr, DecidableEq

/-- Keyword arguments as parsed from the JSON `args` object. -/
abbrev Args := List (CP × JVal)

/-- A registered implementation: receives the expanded keyword arguments
and the mutable module state, returns an outcome and the new state. -/
abbrev Impl := Args → GState → POut JVal × GState

/-- `FUNCTION_REGISTRY`, in registration order. -/
abbrev Registry := List (CP × Impl)

def lookupReg (reg : Registry) (name : CP) : Option Impl :=
  (reg.find? (fun p => p.1 == name)).map (·.2)

/-- An `{"error": msg}` result mapping. -/
def errMap (m : CP) : JVal := .obj [(cp "error", .str m)]

/-- A `{"status": msg}` result mapping. -/
def statusMap (m : String) : JVal := .obj [(cp "status", .str (cp m))]

/-- `args` value of a call expanded as `fn(**args)`: only a mapping can be
expanded, anything else raises `TypeError`. -/
def kwArgs : JVal → Option Args
  | .obj kvs => some kvs
  | _ => none

/-- Model of `functions.call(name, args)`: unknown names yield an
error mapping without raising; the two control signals re-raise; every
other exception becomes an error mapping. -/
def callFn (reg : Registry) (name : CP) (argsVal : JVal) (st : GState) :
    POut JVal × GState :=
  match lookupReg reg name with
  | none => (.val (errMap (cp "Unknown function: " ++ name)), st)
  | some impl =>
    match kwArgs argsVal with
    | none => (.val (errMap (cp "argument after ** must be a mapping")), st)
    | some args =>
      match impl args st with
      | (.val v, st2) => (.val v, st2)
      | (.exc .enterSleep, st2) => (.exc .enterSleep, st2)
      | (.exc .terminate, st2) => (.exc .terminate, st2)
      | (.exc (.other m), st2) => (.val (errMap m), st2)

/-- Result of one of the I/O-performing registered functions (weather,
notes, camera, iMessage, ...), supplied as an oracle: these can return a
value or raise an ordinary exception, but never a control signal. -/
inductive ExtRes where
  | ok : JVal → ExtRes
  | raise : CP → ExtRes
deriving Repr

/-- The environment of external effects: oracles for the I/O functions,
for `eval` inside `calculate`, and the dictation file path. -/
structure FnEnv where
  ext : CP → Args → ExtRes
  evalO : CP → ExtRes
  dictPath : CP

/-- Lift an external oracle into an implementation (no module state is
touched by these functions). -/
def extImpl (env : FnEnv) (name : String) : Impl :=
  fun args st =>
    match env.ext (cp name) args with
    | .ok v => (.val v, st)
    | .raise m => (.exc (.other m), st)

/-- Wrapper for the zero-parameter functions: calling them with keyword
arguments raises `TypeError` before the body runs. -/
def noArgs (name : String) (body : GState → POut JVal × GState) : Impl :=
  fun args st =>
    if args.isEmpty then body st
    else (.exc (.other (cp (name ++ "() got an unexpected keyword argument"))), st)

/-- The characters `calculate` accepts. -/
def allowedCalcChars : CP := cp "0123456789+-*/.() %"

/-- Model of the body of `functions.calculate`: the character filter runs
first (outside the `try`), then `eval` (modelled by the oracle, which can
only fail with an ordinary exception given the restricted character set)
inside a `try/except Exception`. -/
def calcBody (evalO : CP → ExtRes) (expression : CP) : POut JVal :=
  if ¬ expression.all (fun c => c ∈ allowedCalcChars) then
    .val (errMap (cp "Invalid characters in expression"))
  else
    match evalO expression with
    | .ok v => .val (.obj [(cp "expression", .str expression), (cp "result", v)])
    | .raise m => .val (errMap m)

/-- `calculate` as a registered implementation: exactly one string
keyword `expression`; any other call shape raises `TypeError` (outside
the body's `try`). -/
def calculateImpl (evalO : CP → ExtRes) : Impl :=
  fun args st =>
    match args with
    | [(k, JVal.str e)] =>
      if k == cp "expression" then (calcBody evalO e, st)
      else (.exc (.other (cp "calculate() got an unexpected keyword argument")), st)
    | _ => (.exc (.other (cp "calculate() invalid arguments")), st)

def startVisualImpl : Impl :=
  noArgs "start_visual_mode" (fun st =>
    (.val (statusMap "visual_mode_enabled"), {st with visual := true}))

def stopVisualImpl : Impl :=
  noArgs "stop_visual_mode" (fun st =>
    (.val (statusMap "visual_mode_disabled"), {st with visual := false}))

def muteImpl : Impl :=
  noArgs "mute_microphone" (fun st =>
    (.val (statusMap "microphone_muted"), {st with muted := true}))

def unmuteImpl : Impl :=
  noArgs "unmute_microphone" (fun st =>
    (.val (statusMap "microphone_unmuted"), {st with muted := false}))

/-- `start_passive_mode` sets `PASSIVE_MODE = True` and touches nothing
else (in particular it does not clear `DICTATION_MODE`). -/
def startPassiveImpl : Impl :=
  noArgs "start_passive_mode" (fun st =>
    (.val (statusMap "passive_mode_enabled"), {st with passive := true}))

def stopPassiveImpl : Impl :=
  noArgs "stop_passive_mode" (fun st =>
    (.val (statusMap "passive_mode_disabled"), {st with passive := false}))

/-- Decimal digit characters of a natural number. -/
def natDigitsAux : Nat → Nat → Str
  | 0, _ => []
  | fuel + 1, n =>
    if n < 10 then [Char.ofNat (48 + n)]
    else natDigitsAux fuel (n / 10) ++ [Char.ofNat (48 + n % 10)]

def natStr (n : Nat) : Str := natDigitsAux (n + 1) n

/-- `start_dictation`: sets `DICTATION_MODE`, forces `PASSIVE_MODE` off,
opens a fresh transcript file and resets the line count. -/
def startDictationImpl (env : FnEnv) : Impl :=
  noArgs "start_dictation" (fun st =>
    (.val (.obj [(cp "status", .str (cp "dictation_started")),
                 (cp "path", .str env.dictPath)]),
     {st with dictation := true, passive := false, dictOpen := true,
              dictPathSet := true, dictLines := 0}))

/-- `stop_dictation`: clears `DICTATION_MODE`, closes the file and reports
the line count (and the path when one was set). -/
def stopDictationImpl (env : FnEnv) : Impl :=
  noArgs "stop_dictation" (fun st =>
    let base := [(cp "status", .str (cp "dictation_stopped")),
                 (cp "lines", JVal.num (natStr st.dictLines))]
    let result := if st.dictPathSet then base ++ [(cp "path", .str env.dictPath)] else base
    (.val (.obj result),
     {st with dictation := false, dictOpen := false, dictPathSet := false,
              dictLines := 0}))

/-- `go_to_sleep` raises `EnterInactiveMode`. -/
def goToSleepImpl : Impl :=
  noArgs "go_to_sleep" (fun st => (.exc .enterSleep, st))

/-- `shutdown` raises `SystemExit`. -/
def shutdownImpl : Impl :=
  noArgs "shutdown" (fun st => (.exc .terminate, st))

/-- The registry populated by `functions.py`, in registration order. -/
def irisRegistry (env : FnEnv) : Registry :=
  [ (cp "get_weather", extImpl env "get_weather"),
    (cp "get_time", extImpl env "get_time"),
    (cp "set_timer", extImpl env "set_timer"),
    (cp "cancel_last_timer", extImpl env "cancel_last_timer"),
    (cp "cancel_all_timers", extImpl env "cancel_all_timers"),
    (cp "calculate", calculateImpl env.evalO),
    (cp "get_system_info", extImpl env "get_system_info"),
    (cp "save_note", extImpl env "save_note"),
    (cp "get_notes", extImpl env "get_notes"),
    (cp "wikipedia_summary", extImpl env "wikipedia_summary"),
    (cp "convert_units", extImpl env "convert_units"),
    (cp "capture_image", extImpl env "capture_image"),
    (cp "home_automation", extImpl env "home_automation"),
    (cp "play_music", extImpl env "play_music"),
    (cp "list_conversations", extImpl env "list_conversations"),
    (cp "send_message", extImpl env "send_message"),
    (cp "read_messages", extImpl env "read_messages"),
    (cp "start_visual_mode", startVisualImpl),
    (cp "stop_visual_mode", stopVisualImpl),
    (cp "mute_microphone", muteImpl),
    (cp "unmute_microphone", unmuteImpl),
    (cp "start_passive_mode", startPassiveImpl),
    (cp "stop_passive_mode", stopPassiveImpl),
    (cp "start_dictation", startDictationImpl env),
    (cp "stop_dictation", stopDictationImpl env),
    (cp "get_dictation_transcript", extImpl env "get_dictation_transcript"),
    (cp "go_to_sleep", goToSleepImpl),
    (cp "shutdown", shutdownImpl) ]

/-! ## `computer.audio_loop`: the conversation loop

One cycle of the `while True` body is embedded as `stepCycle`.  Outward
effects (backend calls, `voice.say`, the UI callbacks, camera handling)
are recorded as an event list.  `time.time()` is abstracted by a clock
that advances one unit per cycle (the claims under verification disable
visual mode, the only time-dependent feature).  `print`/logging calls and
the `finally` clean-up of `audio_loop` are not part of the per-cycle
behavior and are not recorded. -/

inductive Event where
  | backend : Str → Event
  | say : Str → Event
  | status : Str → Event
  | display : Str → Str → Event
  | sleepCb : Bool → Event
  | muteCb : Bool → Event
  | exitCb : Event
  | camInit : Event
  | camRelease : Event
deriving Repr, DecidableEq

/-- The loop-local variables of `audio_loop`. -/
structure LState where
  g : GState
  active : Bool := true
  idle : Nat := 0
  passiveBuffer : List Str := []
  lastVisual : Nat := 0
  clock : Nat := 0
deriving Repr, DecidableEq

/-- What happens after one cycle: continue, return from `audio_loop`, or
an uncaught exception escaping the loop. -/
inductive Ctrl where
  | next : Ctrl
  | halt : Ctrl
  | crash : PyExc → Ctrl
deriving Repr, DecidableEq

/-- Loop configuration: flags from the command line, the assistant name,
the optional per-message prefix, the backend oracle, the external-effect
environment, and the dictation context oracle (keyed by the current line
count). -/
structure LoopCfg where
  quiet : Bool
  hasMic : Bool
  name : Str
  prePrompt : Option Str
  gen : Str → Str
  env : FnEnv
  dictContext : Nat → Str

def IDLE_CYCLES_BEFORE_INACTIVE : Nat := 25
def VISUAL_INTERVAL : Nat := 10

/-- The two Whisper silence artifacts treated as empty input. -/
def silenceArtifacts : List Str :=
  [ls "15 15 15 15 15 15 15", ls "25 25 25 25 25 25 25"]

/-- Join a list of strings with a separator. -/
def joinSep (sep : Str) : List Str → Str
  | [] => []
  | [x] => x
  | x :: rest => x ++ sep ++ joinSep sep rest

/-- Render code points back to characters (used when a decoded JSON
string is interpolated into a prompt; invalid scalar values render as
the null character). -/
def cpToStr (s : CP) : Str := s.map Char.ofNat

def hexDigit (n : Nat) : Char :=
  if n < 10 then Char.ofNat (48 + n) else Char.ofNat (87 + n)

/-- A `\uXXXX` escape. -/
def u4 (n : Nat) : Str :=
  ['\\', 'u', hexDigit (n / 4096 % 16), hexDigit (n / 256 % 16),
   hexDigit (n / 16 % 16), hexDigit (n % 16)]

/-- `json.dumps` escaping of one code point (`ensure_ascii` default:
everything outside printable ASCII is escaped, astral code points as a
surrogate pair). -/
def escCP (n : Nat) : Str :=
  if n = 34 then ['\\', '"']
  else if n = 92 then ['\\', '\\']
  else if n = 8 then ['\\', 'b']
  else if n = 12 then ['\\', 'f']
  else if n = 10 then ['\\', 'n']
  else if n = 13 then ['\\', 'r']
  else if n = 9 then ['\\', 't']
  else if n < 0x20 ∨ n > 0x7e then
    if n > 0xffff then
      u4 (0xd800 + (n - 0x10000) / 0x400) ++ u4 (0xdc00 + (n - 0x10000) % 0x400)
    else u4 n
  else [Char.ofNat n]

/-- `json.dumps` of a string. -/
def dumpStr (s : CP) : Str :=
  '"' :: s.foldr (fun n acc => escCP n ++ acc) ['"']

mutual

/-- Model of `json.dumps(v)` with default separators.  Numbers are
rendered as their raw parsed token (model simplification; the claims do
not depend on float re-rendering). -/
def dumpsV : JVal → Str
  | .obj kvs => '\x7b' :: (dumpsKVs kvs ++ ['\x7d'])
  | .arr vs => '[' :: (dumpsArr vs ++ [']'])
  | .str s => dumpStr s
  | .num raw => raw
  | .bool true => ls "true"
  | .bool false => ls "false"
  | .null => ls "null"
  | .nan => ls "NaN"
  | .inf => ls "Infinity"
  | .ninf => ls "-Infinity"

def dumpsKVs : List (CP × JVal) → Str
  | [] => []
  | [(k, v)] => dumpStr k ++ ls ": " ++ dumpsV v
  | (k, v) :: rest => dumpStr k ++ ls ": " ++ dumpsV v ++ ls ", " ++ dumpsKVs rest

def dumpsArr : List JVal → Str
  | [] => []
  | [v] => dumpsV v
  | v :: rest => dumpsV v ++ ls ", " ++ dumpsArr rest

end

/-- Python `str(x)` interpolation in an f-string for values taken from a
parsed JSON object (strings verbatim, everything else as its dump). -/
def fmtVal : JVal → Str
  | .str s => cpToStr s
  | v => dumpsV v

/-- The `"function"` name of a call object as used for registry lookup.
Non-string names cannot match any registered (string) key; the model
renders them to an unmatchable name (the source would treat hashable
non-strings the same way and crash on unhashable ones). -/
def fnNameOf (jd : JVal) : CP :=
  match getKey jd funcKey with
  | some (.str n) => n
  | _ => cp "\x00non-string-name"

/-- Model of `computer._execute_functions`: run every parsed call in
order through the dispatcher, collecting `(name, result)` pairs; a control
signal raised by a call aborts the iteration and propagates. -/
def execFns (reg : Registry) : List JVal → GState → POut (List (CP × JVal)) × GState
  | [], st => (.val [], st)
  | jd :: rest, st =>
    let name := fnNameOf jd
    let argsV := (getKey jd (cp "args")).getD (.obj [])
    match callFn reg name argsV st with
    | (.val r, st2) =>
      (match execFns reg rest st2 with
       | (.val results, st3) => (.val ((name, r) :: results), st3)
       | (.exc e, st3) => (.exc e, st3))
    | (.exc e, st2) => (.exc e, st2)

/-- `.png` path extraction from one function result, as in
`_build_follow_up` (`result.get("path", "")` when the result is a dict,
then `path.endswith(".png")`). -/
def resultPathPng (r : JVal) : Option CP :=
  match getKey r (cp "path") with
  | some (.str p) => if (cp ".png").isSuffixOf p then some p else none
  | _ => none

/-- Model of `computer._build_follow_up`. -/
def buildFollowUp (results : List (CP × JVal)) : Str :=
  let parts := results.map (fun p => cpToStr p.1 ++ ls " returned: " ++ dumpsV p.2)
  let imagePath := results.foldl
    (fun acc p => match resultPathPng p.2 with | some q => some q | none => acc) none
  let plain := ls "Functions called:\n" ++ joinSep (ls "\n") parts ++
    ls "\nSummarize the results conversationally."
  match imagePath with
  | some q =>
    if results.length = 1 then
      ls "Read the image at " ++ cpToStr q ++
        ls " and describe what you see. Be brief and conversational."
    else plain
  | none => plain

/-- The visual-mode capture-and-describe action shared by several
branches: capture an image, and when a path comes back ask the backend to
describe it. -/
def visualDescribe (cfg : LoopCfg) : List Event × Option PyExc :=
  match cfg.env.ext (cp "capture_image") [] with
  | .raise m => ([], some (.other m))
  | .ok r =>
    match getKey r (cp "path") with
    | some pv =>
      let promptText := ls "Read the image at " ++ fmtVal pv ++
        ls " and describe what you see. Narrate any changes or interesting details briefly."
      let response := cfg.gen promptText
      let speech := (parseResponse response).1
      ([.backend promptText, .display (ls "[visual]") response, .say speech], none)
    | none => ([], none)

/-- The status line shown when returning to idle listening. -/
def endStatus (cfg : LoopCfg) : Event :=
  .status (if cfg.quiet then ls "Waiting for input..." else ls "Listening...")

/-- The sleep transition side effects (shared by the idle-threshold path
and the `EnterInactiveMode` handler). -/
def sleepEvents (name : Str) : List Event :=
  [.camRelease, .say (ls "Going to sleep."), .sleepCb true,
   .status (ls "Sleeping (say \x27" ++ name ++ ls "\x27 to wake)")]

/-- The passive-mode prompt (`audio_loop`, wake-word path). -/
def passivePrompt (context : Str) : Str :=
  ls "You have been in passive mode, listening to a conversation. Here is what you overheard:\n\n"
    ++ context ++ ls "\n\nSomeone just addressed you directly. Respond to them."

/-- The dictation-mode prompt. -/
def dictPrompt (context : Str) : Str :=
  ls "You are in dictation mode, continuously transcribing speech to a file. Here is the recent transcript:\n\n"
    ++ context ++
    ls "\n\nSomeone just addressed you. Respond to their request. You can summarize, answer questions about the transcript, or save structured notes. The transcript will continue accumulating after you respond."

/-- The active-mode turn of `audio_loop` (the `try` block and its
handlers): call the backend, speak, execute parsed calls, summarize via a
follow-up backend call, and update the UI from the called-function set. -/
def activeTurn (cfg : LoopCfg) (s : LState) (text : Str) : List Event × LState × Ctrl :=
  let promptText := match cfg.prePrompt with
    | some p => p ++ [' '] ++ text
    | none => text
  let response := cfg.gen promptText
  let pr := parseResponse response
  let speech := pr.1
  let jsonList := pr.2
  let evs0 := [Event.backend promptText, .display text response]
  if jsonList.isEmpty then
    (evs0 ++ [.say speech, endStatus cfg], s, .next)
  else
    let evs1 := evs0 ++ [.say speech]
    match execFns (irisRegistry cfg.env) jsonList s.g with
    | (.exc .enterSleep, g2) =>
      (evs1 ++ sleepEvents cfg.name,
       {s with g := g2, active := false, idle := 0}, .next)
    | (.exc .terminate, g2) =>
      (evs1 ++ [.say speech, .exitCb], {s with g := g2}, .halt)
    | (.exc (.other m), g2) =>
      (evs1, {s with g := g2}, .crash (.other m))
    | (.val results, g2) =>
      let followUpPrompt := buildFollowUp results
      let followUp := cfg.gen followUpPrompt
      let speech2 := (parseResponse followUp).1
      let called := jsonList.map fnNameOf
      let evsMute :=
        if called.contains (cp "mute_microphone") ∨
           called.contains (cp "unmute_microphone") then
          [Event.muteCb g2.muted,
           .status (if g2.muted then ls "Muted (visual mode active)" else ls "Listening...")]
        else []
      let passiveToggled := called.contains (cp "start_passive_mode") ∨
        called.contains (cp "stop_passive_mode")
      let evsPassive :=
        if passiveToggled then
          [Event.status (if g2.passive then ls "Passive mode (0 lines)" else ls "Listening...")]
        else []
      let dictToggled := called.contains (cp "start_dictation") ∨
        called.contains (cp "stop_dictation")
      let evsDict :=
        if dictToggled then
          [Event.status (if g2.dictation then
              ls "Dictating (" ++ natStr g2.dictLines ++ ls " lines)"
            else ls "Listening...")]
        else []
      let buf2 := if (passiveToggled ∧ ¬ g2.passive) ∨ (dictToggled ∧ g2.dictation)
        then [] else s.passiveBuffer
      (evs1 ++ [.backend followUpPrompt, .display text followUp] ++
         evsMute ++ evsPassive ++ evsDict ++ [.say speech2, endStatus cfg],
       {s with g := g2, passiveBuffer := buf2}, .next)

/-- The passive-mode branch of the cycle. -/
def passiveCycle (cfg : LoopCfg) (s : LState) (text : Str) : List Event × LState × Ctrl :=
  let buf1 := if text.isEmpty then s.passiveBuffer else s.passiveBuffer ++ [text]
  let evsA : List Event := if text.isEmpty then [] else
    [.status (ls "Passive mode (" ++ natStr buf1.length ++ ls " lines)")]
  if ¬ text.isEmpty ∧ is_wake_word cfg.name text then
    let context := joinSep (ls "\n") buf1
    let promptText := passivePrompt context
    let response := cfg.gen promptText
    let pr := parseResponse response
    let speech := pr.1
    let jsonList := pr.2
    let evsB := evsA ++ [Event.status (ls "Processing..."), .backend promptText,
      .display (ls "[conversation] " ++ text) response]
    if jsonList.isEmpty then
      (evsB ++ [.say speech, .status (ls "Passive mode (0 lines)")],
       {s with passiveBuffer := [], idle := 0}, .next)
    else
      match execFns (irisRegistry cfg.env) jsonList s.g with
      | (.exc e, g2) =>
        (evsB ++ [.say speech], {s with g := g2, passiveBuffer := []}, .crash e)
      | (.val results, g2) =>
        let followUpPrompt := buildFollowUp results
        let followUp := cfg.gen followUpPrompt
        let speech2 := (parseResponse followUp).1
        let called := jsonList.map fnNameOf
        let evsC := evsB ++ [Event.say speech, .backend followUpPrompt,
          .display text followUp]
        if called.contains (cp "stop_passive_mode") then
          (evsC ++ [.status (ls "Listening..."), .say speech2],
           {s with g := g2, passiveBuffer := []}, .next)
        else
          (evsC ++ [.say speech2, .status (ls "Passive mode (0 lines)")],
           {s with g := g2, passiveBuffer := [], idle := 0}, .next)
  else
    let sBuf := {s with passiveBuffer := buf1}
    if s.g.visual ∧ s.clock - s.lastVisual ≥ VISUAL_INTERVAL then
      let (evs, excO) := visualDescribe cfg
      match excO with
      | some e => (evsA ++ evs, {sBuf with lastVisual := s.clock}, .crash e)
      | none => (evsA ++ evs, {sBuf with lastVisual := s.clock, idle := 0}, .next)
    else (evsA, {sBuf with idle := 0}, .next)

/-- The dictation-mode branch of the cycle. -/
def dictCycle (cfg : LoopCfg) (s : LState) (text : Str) : List Event × LState × Ctrl :=
  let record := ¬ text.isEmpty ∧ ¬ silenceArtifacts.contains text
  let g1 := if record ∧ s.g.dictOpen then {s.g with dictLines := s.g.dictLines + 1} else s.g
  let evsA : List Event := if record then
    [.status (ls "Dictating (" ++ natStr g1.dictLines ++ ls " lines)")] else []
  let s1 := {s with g := g1}
  if ¬ text.isEmpty ∧ is_wake_word cfg.name text then
    let context := cfg.dictContext g1.dictLines
    let promptText := dictPrompt context
    let response := cfg.gen promptText
    let pr := parseResponse response
    let speech := pr.1
    let jsonList := pr.2
    let evsB := evsA ++ [Event.status (ls "Processing..."), .backend promptText,
      .display (ls "[dictation] " ++ text) response]
    if jsonList.isEmpty then
      (evsB ++ [.say speech,
        .status (ls "Dictating (" ++ natStr g1.dictLines ++ ls " lines)")],
       {s1 with idle := 0}, .next)
    else
      match execFns (irisRegistry cfg.env) jsonList g1 with
      | (.exc e, g2) =>
        (evsB ++ [.say speech], {s1 with g := g2}, .crash e)
      | (.val results, g2) =>
        let followUpPrompt := buildFollowUp results
        let followUp := cfg.gen followUpPrompt
        let speech2 := (parseResponse followUp).1
        let called := jsonList.map fnNameOf
        let evsC := evsB ++ [Event.say speech, .backend followUpPrompt,
          .display text followUp]
        if called.contains (cp "stop_dictation") then
          (evsC ++ [.say speech2, .status (ls "Listening...")],
           {s1 with g := g2}, .next)
        else
          (evsC ++ [.say speech2,
            .status (ls "Dictating (" ++ natStr g2.dictLines ++ ls " lines)")],
           {s1 with g := g2, idle := 0}, .next)
  else
    if s.g.visual ∧ s.clock - s.lastVisual ≥ VISUAL_INTERVAL then
      let (evs, excO) := visualDescribe cfg
      match excO with
      | some e => (evsA ++ evs, {s1 with lastVisual := s.clock}, .crash e)
      | none => (evsA ++ evs, {s1 with lastVisual := s.clock, idle := 0}, .next)
    else (evsA, {s1 with idle := 0}, .next)

/-- One full cycle of the `while True` body of `audio_loop`, given the
already-captured raw input text. -/
def stepCycle (cfg : LoopCfg) (s : LState) (rawText : Str) : List Event × LState × Ctrl :=
  let text := normalizeUtterance rawText
  -- Muted: discard all audio unless it contains "unmute"
  if s.g.muted ∧ cfg.hasMic ∧ ¬ cfg.quiet ∧
     ¬ (¬ text.isEmpty ∧ (pySplit text).contains (ls "unmute")) then
    let s2 := {s with idle := 0}
    if s.g.visual ∧ s.clock - s.lastVisual ≥ VISUAL_INTERVAL then
      let (evs, excO) := visualDescribe cfg
      match excO with
      | some e => (evs, {s2 with lastVisual := s.clock}, .crash e)
      | none => (evs, {s2 with lastVisual := s.clock}, .next)
    else ([], s2, .next)
  else if s.g.passive ∧ s.active ∧ cfg.hasMic ∧ ¬ cfg.quiet then
    passiveCycle cfg s text
  else if s.g.dictation ∧ s.active ∧ cfg.hasMic ∧ ¬ cfg.quiet then
    dictCycle cfg s text
  else if text.isEmpty ∨ silenceArtifacts.contains text then
    if s.active ∧ ¬ cfg.quiet ∧ cfg.hasMic then
      if s.g.visual then
        let s2 := {s with idle := 0}
        if s.clock - s.lastVisual ≥ VISUAL_INTERVAL then
          let (evs, excO) := visualDescribe cfg
          match excO with
          | some e => (evs, {s2 with lastVisual := s.clock}, .crash e)
          | none => (evs, {s2 with lastVisual := s.clock}, .next)
        else ([], s2, .next)
      else
        let idle2 := s.idle + 1
        if idle2 ≥ IDLE_CYCLES_BEFORE_INACTIVE then
          (sleepEvents cfg.name, {s with active := false, idle := 0}, .next)
        else ([], {s with idle := idle2}, .next)
    else ([], s, .next)
  else if ¬ s.active then
    if is_wake_word cfg.name text then
      ([.camInit, .say (ls "I\x27m here."), .sleepCb false, .status (ls "Listening...")],
       {s with active := true, idle := 0}, .next)
    else ([], s, .next)
  else
    let s2 := {s with idle := 0, lastVisual := s.clock}
    let r := activeTurn cfg s2 text
    ([Event.status (ls "Processing...")] ++ r.1, r.2.1, r.2.2)

/-- Run the loop over a list of captured inputs (`none` models a `None`
from `get_input`, i.e. a microphone failure or end of input, which exits
the loop). -/
def runLoop (cfg : LoopCfg) : LState → List (Option Str) → List Event × LState
  | s, [] => ([], s)
  | s, none :: _ => ([.exitCb], s)
  | s, some t :: rest =>
    let s1 := {s with clock := s.clock + 1}
    let r := stepCycle cfg s1 t
    match r.2.2 with
    | .next =>
      let r2 := runLoop cfg r.2.1 rest
      (r.1 ++ r2.1, r2.2)
    | _ => (r.1, r.2.1)

/-- The eight mode-toggling registered functions. -/
inductive ModeOp where
  | startVisual | stopVisual | mute | unmute
  | startPassive | stopPassive | startDict | stopDict
deriving Repr, DecidableEq

def modeOpName : ModeOp → CP
  | .startVisual => cp "start_visual_mode"
  | .stopVisual => cp "stop_visual_mode"
  | .mute => cp "mute_microphone"
  | .unmute => cp "unmute_microphone"
  | .startPassive => cp "start_passive_mode"
  | .stopPassive => cp "stop_passive_mode"
  | .startDict => cp "start_dictation"
  | .stopDict => cp "stop_dictation"

/-- Dispatch one mode-toggling call (empty kwargs) and keep the resulting
module state. -/
def applyModeOp (env : FnEnv) (st : GState) (op : ModeOp) : GState :=
  (callFn (irisRegistry env) (modeOpName op) (.obj []) st).2

/-- A concrete external environment for closed instances: every external
oracle succeeds with `null`. -/
def trivialEnv : FnEnv :=
  { ext := fun _ _ => .ok .null, evalO := fun _ => .ok .null, dictPath := [] }

/-- The backend prompts among a list of events, in order. -/
def backendPrompts (evs : List Event) : List Str :=
  evs.filterMap (fun e => match e with | .backend p => some p | _ => none)

/-- The `on_sleep` invocations among a list of events, in order. -/
def sleepSignals (evs : List Event) : List Bool :=
  evs.filterMap (fun e => match e with | .sleepCb b => some b | _ => none)

/-- A loop configuration in the default voice set-up: microphone present,
not quiet, assistant name `Iris`, no per-message prefix. -/
def mkLoopCfg (gen : Str → Str) (env : FnEnv) (dc : Nat → Str) : LoopCfg :=
  { quiet := false, hasMic := true, name := ls "Iris", prePrompt := none,
    gen := gen, env := env, dictContext := dc }

/-- The loop state at entry of the `while` loop (all mode flags off). -/
def initLState : LState := { g := {} }

/-- The loop state at entry when started with `--passive`. -/
def passiveInitLState : LState := { g := { passive := true } }

/-- The C6 scenario input stream: a greeting, then 25 empty captures. -/
def c6inputs : List (Option Str) :=
  some (ls "hello iris") :: List.replicate 25 (some [])

/-- The C7 scenario input stream: an overheard line, then an addressed
utterance. -/
def c7inputs : List (Option Str) :=
  [some (ls "the sky is blue"), some (ls "iris what\x27s up")]

/-- A fully concrete configuration used for closed counterexamples: the
backend always answers `ok`. -/
def c7cfg : LoopCfg := mkLoopCfg (fun _ => ls "ok") trivialEnv (fun _ => [])

/-- The loop state after the first C7 cycle: the overheard line is
buffered, the clock has advanced one cycle. -/
def c7s2 : LState :=
  { g := { passive := true }, passiveBuffer := [ls "the sky is blue"], clock := 1 }

/-- The loop state after the second C7 cycle: the buffer has been sent as
context and cleared. -/
def c7s3 : LState := { g := { passive := true }, clock := 2 }

/-- Substring containment as a Boolean (used to state that the wake
utterance occurs inside the passive prompt). -/
def strContains (sub s : Str) : Bool :=
  (List.range (s.length + 1)).any (fun i => sub.isPrefixOf (s.drop i))

/-! ## Lemmas about the edit-distance recurrence -/

theorem edD_right_zero (a b : Str) (fuel i : Nat) : edD a b fuel i 0 = i := by
  cases i <;> cases fuel <;> rfl

theorem edD_symm (a b : Str) :
    ∀ fuel i j, edD a b fuel i j = edD b a fuel j i := by
  intro fuel
  induction fuel with
  | zero => intro i j; cases i <;> cases j <;> rfl
  | succ f ih =>
    intro i j
    cases i with
    | zero => cases j <;> rfl
    | succ i' =>
      cases j with
      | zero => rfl
      | succ j' =>
        simp only [edD, ih]
        have hcost : (if b.get? j' = a.get? i' then (0 : Nat) else 1) =
            (if a.get? i' = b.get? j' then (0 : Nat) else 1) := by
          by_cases hc : a.get? i' = b.get? j'
          · rw [if_pos hc, if_pos hc.symm]
          · rw [if_neg hc, if_neg (fun h => hc h.symm)]
        rw [hcost]
        by_cases hT : 1 ≤ i' ∧ 1 ≤ j' ∧ a.get? i' = b.get? (j' - 1) ∧
            a.get? (i' - 1) = b.get? j'
        · have hT2 : 1 ≤ j' ∧ 1 ≤ i' ∧ b.get? j' = a.get? (i' - 1) ∧
              b.get? (j' - 1) = a.get? i' :=
            ⟨hT.2.1, hT.1, hT.2.2.2.symm, hT.2.2.1.symm⟩
          rw [if_pos hT, if_pos hT2]
          omega
        · have hT2 : ¬ (1 ≤ j' ∧ 1 ≤ i' ∧ b.get? j' = a.get? (i' - 1) ∧
              b.get? (j' - 1) = a.get? i') :=
            fun h => hT ⟨h.2.1, h.1, h.2.2.2.symm, h.2.2.1.symm⟩
          rw [if_neg hT, if_neg hT2]
          omega

theorem edD_refl (a : Str) : ∀ fuel i, i ≤ fuel → edD a a fuel i i = 0 := by
  intro fuel
  induction fuel with
  | zero => intro i hi; interval_cases i; rfl
  | succ f ih =>
    intro i hi
    cases i with
    | zero => rfl
    | succ i' =>
      have h0 : edD a a f i' i' = 0 := ih i' (by omega)
      simp only [edD, h0, if_true]
      by_cases hT : 1 ≤ i' ∧ 1 ≤ i' ∧ a.get? i' = a.get? (i' - 1) ∧
          a.get? (i' - 1) = a.get? i'
      · rw [if_pos hT]; omega
      · rw [if_neg hT]; omega

/-- **C10** — The edit distance used by the wake-word matcher is
symmetric, reflexive, and measures the full length against the empty
string: for all strings `a` and `b`,
`_edit_distance(a, b) = _edit_distance(b, a)`, `_edit_distance(a, a) = 0`,
and `_edit_distance(a, "") = len(a)`. -/
theorem C10_edit_distance_algebra :
    (∀ a b : Str, edit_distance a b = edit_distance b a) ∧
    (∀ a : Str, edit_distance a a = 0) ∧
    (∀ a : Str, edit_distance a [] = a.length) := by
  refine ⟨fun a b => ?_, fun a => ?_, fun a => ?_⟩
  · unfold edit_distance
    rw [edD_symm a b]
    have h : a.length + b.length + 1 = b.length + a.length + 1 := by omega
    rw [h]
  · exact edD_refl a _ _ (by omega)
  · simp only [edit_distance, List.length_nil]
    exact edD_right_zero a [] _ _

/-! ## C5: the wake-word matcher -/

/-- **C5, counterexample** — The claim states the matcher returns false
for the utterance `"idris"` (said to be at distance 2 from `"iris"`); in
fact the distance is 1 (delete the `d`), so the matcher returns true. -/
theorem C5_counterexample :
    is_wake_word (ls "Iris") (ls "idris") = true ∧
    edit_distance (ls "idris") (ls "iris") = 1 := by
  constructor <;> decide

/-- **C5, amended** — With assistant name `"Iris"`, the wake-word matcher
returns true for `"irys"` (distance 1), true for `"iris"` (distance 0),
and also true for `"idris"`, whose distance is 1 (a single deletion), not
2 as claimed; in general it matches iff some whitespace token of the
lowercased utterance is within edit distance 1 (insertions, deletions,
substitutions and adjacent transposition each cost 1, as computed by
`_edit_distance`) of the lowercased assistant name, or the token list
contains both `"wake"` and `"up"`. -/
theorem C5_wake_word :
    (∀ name text : Str,
      is_wake_word name text = true ↔
        ((pySplit (pyLower text)).any
            (fun w => edit_distance w (pyLower name) ≤ 1) = true ∨
          ((pySplit (pyLower text)).contains (ls "wake") = true ∧
            (pySplit (pyLower text)).contains (ls "up") = true))) ∧
    is_wake_word (ls "Iris") (ls "irys") = true ∧
    is_wake_word (ls "Iris") (ls "iris") = true ∧
    is_wake_word (ls "Iris") (ls "idris") = true ∧
    edit_distance (ls "idris") (ls "iris") = 1 := by
  refine ⟨fun name text => ?_, by decide, by decide, by decide, by decide⟩
  unfold is_wake_word
  by_cases h1 : (pySplit (pyLower text)).any
      (fun w => edit_distance w (pyLower name) ≤ 1) = true
  · simp [h1]
  · simp only [h1, if_false, Bool.false_eq_true, false_or]
    by_cases h2 : (pySplit (pyLower text)).contains (ls "wake") = true <;>
      by_cases h3 : (pySplit (pyLower text)).contains (ls "up") = true <;>
        simp [h1, h2, h3]

/-! ## C1: the dispatcher error-propagation contract -/

/-- **C1** — `Dispatcher.call(name, args)` never lets an ordinary
exception escape: an unregistered name yields
`{"error": "Unknown function: <name>"}` without raising; a control signal
(`EnterInactiveMode`/`SystemExit`) raised by the implementation
propagates unmodified (together with any state mutation already done);
any other exception becomes `{"error": message}`.  In particular, on the
registry of `functions.py`, `call("shutdown", {})` raises `SystemExit`,
`call("go_to_sleep", {})` raises `EnterInactiveMode`, and
`call("unknown_fn", {})` returns the unknown-function error mapping
without raising. -/
theorem C1_dispatcher_contract :
    (∀ (reg : Registry) (name : CP) (args : JVal) (st : GState) (m : CP),
        (callFn reg name args st).1 ≠ POut.exc (.other m)) ∧
    (∀ (reg : Registry) (name : CP) (args : JVal) (st : GState),
        lookupReg reg name = none →
        callFn reg name args st =
          (.val (errMap (cp "Unknown function: " ++ name)), st)) ∧
    (∀ (reg : Registry) (name : CP) (impl : Impl) (args : Args) (st : GState),
        lookupReg reg name = some impl →
        ((impl args st).1 = POut.exc .enterSleep →
          callFn reg name (.obj args) st = impl args st) ∧
        ((impl args st).1 = POut.exc .terminate →
          callFn reg name (.obj args) st = impl args st) ∧
        (∀ m, (impl args st).1 = POut.exc (.other m) →
          callFn reg name (.obj args) st = (.val (errMap m), (impl args st).2))) ∧
    (∀ (env : FnEnv) (st : GState),
        callFn (irisRegistry env) (cp "shutdown") (.obj []) st = (.exc .terminate, st)) ∧
    (∀ (env : FnEnv) (st : GState),
        callFn (irisRegistry env) (cp "go_to_sleep") (.obj []) st = (.exc .enterSleep, st)) ∧
    (∀ (env : FnEnv) (st : GState),
        callFn (irisRegistry env) (cp "unknown_fn") (.obj []) st =
          (.val (errMap (cp "Unknown function: unknown_fn")), st)) := by
  refine ⟨?_, ?_, ?_, fun env st => rfl, fun env st => rfl, fun env st => rfl⟩
  · intro reg name args st m
    unfold callFn
    split
    · simp
    · split
      · simp
      · split <;> simp_all
  · intro reg name args st h
    simp only [callFn, h]
  · intro reg name impl args st h
    have hk : kwArgs (JVal.obj args) = some args := rfl
    refine ⟨?_, ?_, ?_⟩
    · intro ho
      rcases hio : impl args st with ⟨o, st2⟩
      rw [hio] at ho
      simp only at ho
      subst ho
      simp only [callFn, h, hk, hio]
    · intro ho
      rcases hio : impl args st with ⟨o, st2⟩
      rw [hio] at ho
      simp only at ho
      subst ho
      simp only [callFn, h, hk, hio]
    · intro m ho
      rcases hio : impl args st with ⟨o, st2⟩
      rw [hio] at ho
      simp only at ho
      subst ho
      simp only [callFn, h, hk, hio]

/-- **C1, witness** — concrete instances: the empty registry rejects
`"f"` as unknown without raising, and a registered control-signal
implementation propagates. -/
theorem C1_dispatcher_contract_witness :
    (lookupReg [] (cp "f") = none ∧
      callFn [] (cp "f") (.obj []) {} =
        (.val (errMap (cp "Unknown function: f")), {})) ∧
    (lookupReg [(cp "g", goToSleepImpl)] (cp "g") = some goToSleepImpl ∧
      (goToSleepImpl [] {}).1 = POut.exc .enterSleep ∧
      callFn [(cp "g", goToSleepImpl)] (cp "g") (.obj []) {} = goToSleepImpl [] {}) :=
  ⟨⟨rfl, C1_dispatcher_contract.2.1 [] (cp "f") (.obj []) {} rfl⟩,
   ⟨rfl, rfl,
    (C1_dispatcher_contract.2.2.1 [(cp "g", goToSleepImpl)] (cp "g")
      goToSleepImpl [] {} rfl).1 rfl⟩⟩

/-! ## C9: `calculate` input filtering and exception safety -/

/-- **C9** — For every expression containing a character outside
`"0123456789+-*/.() %"`, `calculate` returns
`{"error": "Invalid characters in expression"}` without evaluating the
expression (the result does not depend on the evaluation oracle at all);
and for every input string, `calculate` returns a value (success mapping
or error mapping) rather than raising. -/
theorem C9_calculate_safety :
    (∀ (e1 e2 : CP → ExtRes) (expr : CP),
        (∃ c ∈ expr, ¬ c ∈ allowedCalcChars) →
        calcBody e1 expr = .val (errMap (cp "Invalid characters in expression")) ∧
        calcBody e1 expr = calcBody e2 expr) ∧
    (∀ (e1 : CP → ExtRes) (expr : CP), ∃ v, calcBody e1 expr = .val v) := by
  constructor
  · intro e1 e2 expr h
    obtain ⟨c, hc, hmem⟩ := h
    have hall : ¬ (expr.all (fun c => c ∈ allowedCalcChars) = true) := by
      intro hA
      exact hmem (by simpa using (List.all_eq_true.mp hA c hc))
    constructor
    · simp only [calcBody, if_pos hall]
    · simp only [calcBody, if_pos hall]
  · intro e1 expr
    unfold calcBody
    split
    · exact ⟨_, rfl⟩
    · cases hE : e1 expr with
      | ok v => exact ⟨_, rfl⟩
      | raise m => exact ⟨_, rfl⟩

/-- **C9, witness** — the expression `"2+x"` contains the invalid
character `x`; `calculate` returns the invalid-characters error for any
two evaluation oracles, and always returns a value. -/
theorem C9_calculate_safety_witness :
    (∃ c ∈ cp "2+x", ¬ c ∈ allowedCalcChars) ∧
    calcBody (fun _ => .ok .null) (cp "2+x") =
      .val (errMap (cp "Invalid characters in expression")) ∧
    calcBody (fun _ => .ok .null) (cp "2+x") =
      calcBody (fun _ => .raise (cp "boom")) (cp "2+x") ∧
    (∃ v, calcBody (fun _ => .ok .null) (cp "2+x") = .val v) := by
  have h : ∃ c ∈ cp "2+x", ¬ c ∈ allowedCalcChars := by decide
  refine ⟨h, ?_, ?_, ?_⟩
  · exact (C9_calculate_safety.1 (fun _ => .ok .null) (fun _ => .ok .null)
      (cp "2+x") h).1
  · exact (C9_calculate_safety.1 (fun _ => .ok .null)
      (fun _ => .raise (cp "boom")) (cp "2+x") h).2
  · exact C9_calculate_safety.2 (fun _ => .ok .null) (cp "2+x")

/-! ## C2: the watchdog wrapper -/

theorem pollLoop_none (r e : Nat) : pollLoop none r e = (r, false) := by
  induction r generalizing e with
  | zero => rfl
  | succ r ih => simp [pollLoop, doneBy, ih]

theorem pollLoop_late (d : Nat) :
    ∀ r e, e + r < d → pollLoop (some d) r e = (r, false) := by
  intro r
  induction r with
  | zero => intro e h; rfl
  | succ r ih =>
    intro e h
    have hd : doneBy (some d) (e + 1) = false := by
      simp only [doneBy, decide_eq_false_iff_not]
      omega
    simp only [pollLoop, hd, Bool.false_eq_true, if_false, ih (e + 1) (by omega)]

theorem pollLoop_done (d : Nat) :
    ∀ r e, e < d → d ≤ e + r → pollLoop (some d) r e = (d - e - 1, true) := by
  intro r
  induction r with
  | zero => intro e h1 h2; omega
  | succ r ih =>
    intro e h1 h2
    by_cases hd : d ≤ e + 1
    · have hdone : doneBy (some d) (e + 1) = true := by
        simp only [doneBy, decide_eq_true_eq]; omega
      simp only [pollLoop, hdone, if_true]
      have hz : d - e - 1 = 0 := by omega
      rw [hz]
    · have hfd : doneBy (some d) (e + 1) = false := by
        simp only [doneBy, decide_eq_false_iff_not]; omega
      simp only [pollLoop, hfd, Bool.false_eq_true, if_false,
        ih (e + 1) (by omega) (by omega)]
      have hs : d - (e + 1) - 1 + 1 = d - e - 1 := by omega
      rw [hs]

/-- **C2** — For the watchdog wrapper with parameters `timeout` and
`phrase_limit` (window `W = timeout + phrase_limit + 10`): an operation
that takes longer than `W` (or never completes) fails with the hung
error after `W` status reports; an operation completing in `d ≤ W`
seconds has its value returned, with the status callback invoked once for
every whole time unit that fully elapsed while it was still running
(`d - 1` of them — completion happens during unit `d`); and an operation
that raises has the raised condition captured and re-surfaced to the
caller as the result of the wrapper after the polling loop ends (with the
same status reports as the success case), not as an immediate
interruption. -/
theorem C2_watchdog_contract :
    (∀ (α : Type) (timeout phraseLimit : Nat) (out : Sum α CP),
        listenWithWatchdog timeout phraseLimit none out =
          (.hung, timeout + phraseLimit + 10)) ∧
    (∀ (α : Type) (timeout phraseLimit d : Nat) (out : Sum α CP),
        timeout + phraseLimit + 10 < d →
        listenWithWatchdog timeout phraseLimit (some d) out =
          (.hung, timeout + phraseLimit + 10)) ∧
    (∀ (α : Type) (timeout phraseLimit d : Nat) (v : α),
        d ≤ timeout + phraseLimit + 10 →
        listenWithWatchdog timeout phraseLimit (some d) (.inl v) =
          (.ok v, d - 1)) ∧
    (∀ (α : Type) (timeout phraseLimit d : Nat) (e : CP),
        d ≤ timeout + phraseLimit + 10 →
        listenWithWatchdog (α := α) timeout phraseLimit (some d) (.inr e) =
          (.opRaised e, d - 1)) := by
  have hcomplete : ∀ (d timeout phraseLimit : Nat), d ≤ timeout + phraseLimit + 10 →
      pollLoop (some d) (timeout + phraseLimit + 10) 0 = (d - 1, true) := by
    intro d timeout phraseLimit hle
    cases d with
    | zero =>
      have h1 : doneBy (some 0) 1 = true := by simp [doneBy]
      have hw : timeout + phraseLimit + 10 = (timeout + phraseLimit + 9) + 1 := by
        omega
      rw [hw]
      simp [pollLoop, h1]
    | succ d' =>
      have h := pollLoop_done (d' + 1) (timeout + phraseLimit + 10) 0
        (by omega) (by omega)
      simpa using h
  refine ⟨?_, ?_, ?_, ?_⟩
  · intro α timeout phraseLimit out
    simp only [listenWithWatchdog]
    rw [pollLoop_none]
    simp [doneBy]
  · intro α timeout phraseLimit d out h
    simp only [listenWithWatchdog]
    rw [pollLoop_late d _ 0 (by omega)]
    have hf : doneBy (some d) (timeout + phraseLimit + 10) = false := by
      simp only [doneBy, decide_eq_false_iff_not]; omega
    simp [hf]
  · intro α timeout phraseLimit d v h
    simp only [listenWithWatchdog]
    rw [hcomplete d timeout phraseLimit h]
    simp
  · intro α timeout phraseLimit d e h
    simp only [listenWithWatchdog]
    rw [hcomplete d timeout phraseLimit h]
    simp

/-- **C2, witness** — with `timeout = 1`, `phrase_limit = 1` (window 12):
an operation sleeping 13 seconds hangs; one completing in 3 seconds
returns its value with 2 status reports; one raising at 3 seconds
surfaces the raised message with the same reports. -/
theorem C2_watchdog_contract_witness :
    (12 : Nat) < 13 ∧ (3 : Nat) ≤ 12 ∧
    listenWithWatchdog (α := Nat) 1 1 (some 13) (.inl 42) = (.hung, 12) ∧
    listenWithWatchdog (α := Nat) 1 1 (some 3) (.inl 42) = (.ok 42, 2) ∧
    listenWithWatchdog (α := Nat) 1 1 (some 3) (.inr (cp "boom")) =
      (.opRaised (cp "boom"), 2) :=
  ⟨by omega, by omega,
   C2_watchdog_contract.2.1 Nat 1 1 13 (.inl 42) (by omega),
   C2_watchdog_contract.2.2.1 Nat 1 1 3 42 (by omega),
   C2_watchdog_contract.2.2.2 Nat 1 1 3 (cp "boom") (by omega)⟩

/-! ## C3 and C4: `parse_response` -/

theorem matchAfterOpen_append :
    ∀ fuel cs content rest, matchAfterOpen fuel cs = some (content, rest) →
      cs = content ++ rest := by
  intro fuel
  induction fuel with
  | zero => intro cs c r h; exact absurd h (by simp [matchAfterOpen])
  | succ f ih =>
    intro cs content rest h
    simp only [matchAfterOpen] at h
    split at h
    · rename_i rs heq
      rw [Option.some_inj] at h
      injection h with h1 h2
      rw [← h1, ← h2]
      calc cs = cs.takeWhile isNB ++ cs.dropWhile isNB :=
            (List.takeWhile_append_dropWhile isNB cs).symm
        _ = _ := by rw [heq]; simp
    · rename_i rs heq
      split at h
      · rename_i rs2 heq2
        split at h
        · rename_i tail rest2 heq3
          rw [Option.some_inj] at h
          injection h with h1 h2
          rw [← h1, ← h2]
          have hrs : rs2 = tail ++ rest2 := ih rs2 tail rest2 heq3
          calc cs = cs.takeWhile isNB ++ cs.dropWhile isNB :=
                (List.takeWhile_append_dropWhile isNB cs).symm
            _ = cs.takeWhile isNB ++ '\x7b' :: rs := by rw [heq]
            _ = cs.takeWhile isNB ++ '\x7b' ::
                  (rs.takeWhile isNB ++ rs.dropWhile isNB) := by
                rw [List.takeWhile_append_dropWhile]
            _ = _ := by rw [heq2, hrs]; simp
        · exact absurd h (by simp)
      · exact absurd h (by simp)
    · exact absurd h (by simp)

theorem findAllAux_infix :
    ∀ fuel cs m, m ∈ findAllAux fuel cs → m <:+: cs := by
  intro fuel
  induction fuel with
  | zero => intro cs m h; exact absurd h (by simp [findAllAux])
  | succ f ih =>
    intro cs m h
    match cs with
    | [] => exact absurd h (by simp [findAllAux])
    | c :: cs' =>
      simp only [findAllAux] at h
      split at h
      · rename_i hc
        subst hc
        split at h
        · rename_i content rest heq
          rcases List.mem_cons.mp h with h1 | h1
          · subst h1
            have hsplit := matchAfterOpen_append _ _ _ _ heq
            exact ⟨[], rest, by rw [hsplit]; rfl⟩
          · have hinf := ih rest m h1
            have hsplit := matchAfterOpen_append _ _ _ _ heq
            have hrest : rest <:+: '\x7b' :: cs' :=
              ⟨'\x7b' :: content, [], by rw [hsplit]; simp⟩
            exact hinf.trans hrest
        · exact (ih cs' m h).trans (List.suffix_cons _ _).isInfix
      · exact (ih cs' m h).trans (List.suffix_cons _ _).isInfix

theorem respFold_filter :
    ∀ (ms : List Str) (sp : Str) (acc : List JVal),
      ms.foldl respStep (sp, acc) =
        (applyCalls (ms.filter IsFnCallB) sp,
         acc ++ (ms.filter IsFnCallB).map parsedOf) := by
  intro ms
  induction ms with
  | nil => intro sp acc; simp [applyCalls]
  | cons m ms ih =>
    intro sp acc
    by_cases hfn : IsFnCallB m = true
    · have hstep : respStep (sp, acc) m = (stripOnce m sp, acc ++ [parsedOf m]) := by
        unfold IsFnCallB at hfn
        unfold respStep parsedOf
        cases hj : jsonLoads m with
        | none => rw [hj] at hfn; exact absurd hfn (by simp [hasKey])
        | some d =>
          rw [hj] at hfn
          rw [Option.getD_some] at hfn
          simp only [hj, Option.getD_some, hfn, if_true]
      simp only [List.foldl_cons, hstep, List.filter_cons_of_pos hfn]
      rw [ih]
      simp [applyCalls]
    · have hstep : respStep (sp, acc) m = (sp, acc) := by
        unfold IsFnCallB at hfn
        unfold respStep
        cases hj : jsonLoads m with
        | none => rfl
        | some d =>
          rw [hj] at hfn
          rw [Option.getD_some] at hfn
          simp only [hj]
          rw [if_neg hfn]
      simp only [List.foldl_cons, hstep,
        List.filter_cons_of_neg (by simpa using hfn)]
      exact ih sp acc

/-- **C3** — For every backend output containing zero well-formed JSON
object substrings with a `"function"` key, `parse_response` returns the
whole text with consecutive whitespace collapsed and trimmed as the
speech, and an empty call list; in particular a well-formed JSON object
without a `"function"` key parses but is neither recorded as a call nor
stripped from the speech (left verbatim). -/
theorem C3_no_call_objects :
    (∀ response : Str,
      (∀ pre mid post, response = pre ++ mid ++ post → IsFnCallB mid = false) →
      parseResponse response = (collapseWs response, [])) ∧
    parseResponse (ls "hello \x7b\"a\": 1\x7d world") =
      (ls "hello \x7b\"a\": 1\x7d world", []) ∧
    (jsonLoads (ls "\x7b\"a\": 1\x7d")).isSome = true ∧
    hasKey ((jsonLoads (ls "\x7b\"a\": 1\x7d")).getD .null) funcKey = false := by
  refine ⟨?_, by rfl, by decide, by decide⟩
  intro response h
  have hinert : ∀ m ∈ findAll response, IsFnCallB m = false := by
    intro m hm
    obtain ⟨s, t, hst⟩ := findAllAux_infix _ _ m hm
    exact h s m t hst.symm
  have hfilter : (findAll response).filter IsFnCallB = [] := by
    rw [List.filter_eq_nil_iff]
    intro m hm
    simp [hinert m hm]
  unfold parseResponse
  rw [respFold_filter, hfilter]
  simp [applyCalls]

/-- Bridge from the finitely-checkable form of "no function-call JSON
substring" to the decomposition form used by the theorem. -/
theorem noFnSub_of_check (response : Str)
    (h : ∀ i ∈ List.range (response.length + 1),
        ∀ l ∈ List.range (response.length + 1),
        IsFnCallB ((response.drop i).take l) = false) :
    ∀ pre mid post, response = pre ++ mid ++ post → IsFnCallB mid = false := by
  intro pre mid post hsplit
  have hmid : mid = (response.drop pre.length).take mid.length := by
    rw [hsplit, List.append_assoc, List.drop_left, List.take_left]
  rw [hmid]
  apply h
  · rw [List.mem_range, hsplit]
    simp only [List.length_append]
    omega
  · rw [List.mem_range, hsplit]
    simp only [List.length_append]
    omega

/-- **C3, witness** — a concrete response whose only JSON object has no
`"function"` key: the speech is the whole (already normalized) text, and
no call is recorded. -/
theorem C3_no_call_objects_witness :
    parseResponse (ls "ok \x7b\"a\": 1\x7d then") =
      (collapseWs (ls "ok \x7b\"a\": 1\x7d then"), []) :=
  C3_no_call_objects.1 _ (noFnSub_of_check _ (by decide))

theorem findAllAux_pair_decomp :
    ∀ fuel cs m1 m2, List.Sublist [m1, m2] (findAllAux fuel cs) →
      ∃ a b c, cs = a ++ m1 ++ b ++ m2 ++ c := by
  intro fuel
  induction fuel with
  | zero =>
    intro cs m1 m2 h
    simp only [findAllAux] at h
    exact absurd h (by simp)
  | succ f ih =>
    intro cs m1 m2 h
    match cs with
    | [] =>
      simp only [findAllAux] at h
      exact absurd h (by simp)
    | c :: cs' =>
      simp only [findAllAux] at h
      split at h
      · rename_i hc
        subst hc
        split at h
        · rename_i content rest heq
          have hsplit := matchAfterOpen_append _ _ _ _ heq
          cases h with
          | cons _ htail =>
            obtain ⟨a, b, c', habc⟩ := ih rest m1 m2 htail
            exact ⟨'\x7b' :: content ++ a, b, c', by
              rw [hsplit, habc]; simp⟩
          | cons₂ _ htail =>
            have hm2 : m2 ∈ findAllAux f rest := List.singleton_sublist.mp htail
            obtain ⟨s, t, hst⟩ := findAllAux_infix f rest m2 hm2
            exact ⟨[], s, t, by rw [hsplit, ← hst]; simp⟩
        · obtain ⟨a, b, c', habc⟩ := ih cs' m1 m2 h
          exact ⟨'\x7b' :: a, b, c', by rw [habc]; rfl⟩
      · obtain ⟨a, b, c', habc⟩ := ih cs' m1 m2 h
        exact ⟨c :: a, b, c', by rw [habc]; rfl⟩

/-- **C4, counterexample** — The response
`{"x": {"function": "a"}} {"function": "b"}` contains exactly two
well-formed function-call JSON object substrings (counted over all
substring positions), yet `parse_response` records only one call and the
first object's substring is not removed from the speech: the scanner
consumes the non-call wrapper object and never records the call nested
inside it. -/
theorem C4_counterexample :
    fnObjOccCount
      (ls "\x7b\"x\": \x7b\"function\": \"a\"\x7d\x7d \x7b\"function\": \"b\"\x7d") = 2 ∧
    (parseResponse
      (ls "\x7b\"x\": \x7b\"function\": \"a\"\x7d\x7d \x7b\"function\": \"b\"\x7d")).2.length = 1 ∧
    (parseResponse
      (ls "\x7b\"x\": \x7b\"function\": \"a\"\x7d\x7d \x7b\"function\": \"b\"\x7d")).1 =
      ls "\x7b\"x\": \x7b\"function\": \"a\"\x7d\x7d" := by
  refine ⟨by decide, by rfl, by rfl⟩

/-- **C4, amended** — For every backend output in which the one-level
brace-block scan finds exactly two candidate substrings that parse as
JSON objects with a `"function"` key (in particular whenever the two call
objects are not nested inside any other brace block), `parse_response`
returns both parsed calls in their left-to-right order of appearance in
the text, and the returned speech is the input text with each of the two
matched substrings removed exactly once (first occurrence, in match
order, the source's `replace(match, "", 1).strip()` per call) before the
final whitespace normalization. -/
theorem C4_two_calls :
    ∀ (response m1 m2 : Str),
      (findAll response).filter IsFnCallB = [m1, m2] →
      (∃ a b c, response = a ++ m1 ++ b ++ m2 ++ c) ∧
      parseResponse response =
        (collapseWs (stripOnce m2 (stripOnce m1 response)),
         [parsedOf m1, parsedOf m2]) := by
  intro response m1 m2 hf
  constructor
  · have hsub : List.Sublist [m1, m2] (findAll response) :=
      hf ▸ List.filter_sublist (findAll response)
    exact findAllAux_pair_decomp _ _ m1 m2 hsub
  · unfold parseResponse
    rw [respFold_filter, hf]
    rfl

/-- **C4, witness** — a response with two top-level call objects: the
scan records exactly those two matches, both calls come back in order,
and the speech is the text with each substring removed once. -/
theorem C4_two_calls_witness :
    (findAll (ls "go \x7b\"function\": \"a\"\x7d mid \x7b\"function\": \"b\"\x7d end")).filter
        IsFnCallB =
      [ls "\x7b\"function\": \"a\"\x7d", ls "\x7b\"function\": \"b\"\x7d"] ∧
    (∃ a b c,
      ls "go \x7b\"function\": \"a\"\x7d mid \x7b\"function\": \"b\"\x7d end" =
        a ++ ls "\x7b\"function\": \"a\"\x7d" ++ b ++ ls "\x7b\"function\": \"b\"\x7d" ++ c) ∧
    parseResponse (ls "go \x7b\"function\": \"a\"\x7d mid \x7b\"function\": \"b\"\x7d end") =
      (collapseWs (stripOnce (ls "\x7b\"function\": \"b\"\x7d")
          (stripOnce (ls "\x7b\"function\": \"a\"\x7d")
            (ls "go \x7b\"function\": \"a\"\x7d mid \x7b\"function\": \"b\"\x7d end"))),
       [parsedOf (ls "\x7b\"function\": \"a\"\x7d"), parsedOf (ls "\x7b\"function\": \"b\"\x7d")]) := by
  have hf : (findAll (ls "go \x7b\"function\": \"a\"\x7d mid \x7b\"function\": \"b\"\x7d end")).filter
        IsFnCallB =
      [ls "\x7b\"function\": \"a\"\x7d", ls "\x7b\"function\": \"b\"\x7d"] := by decide
  exact ⟨hf, (C4_two_calls _ _ _ hf).1, (C4_two_calls _ _ _ hf).2⟩

/-! ## C8: mutual exclusion of Dictating and Passive -/

theorem applyModeOp_startDict (env : FnEnv) (st : GState) :
    applyModeOp env st .startDict =
      {st with dictation := true, passive := false, dictOpen := true,
               dictPathSet := true, dictLines := 0} := rfl

/-- **C8, counterexample** — `start_passive_mode` does not clear
`DICTATION_MODE`: calling `start_dictation` and then
`start_passive_mode` from the initial state leaves both flags true, so
the two flags are not mutually exclusive over the mode-toggling calls as
claimed. -/
theorem C8_counterexample :
    (([ModeOp.startDict, ModeOp.startPassive]).foldl
        (applyModeOp trivialEnv) {}).passive = true ∧
    (([ModeOp.startDict, ModeOp.startPassive]).foldl
        (applyModeOp trivialEnv) {}).dictation = true := ⟨rfl, rfl⟩

/-- **C8, amended** — Entering Dictating (`start_dictation`) forces
Passive off; but `start_passive_mode` does not clear `DICTATION_MODE`, so
the flags can become simultaneously true.  The exclusion invariant does
hold for every trace of mode-toggling calls that never invokes
`start_passive_mode` while `DICTATION_MODE` is true: starting from a
state where the flags are not both true, `DICTATION_MODE` and
`PASSIVE_MODE` are never both true. -/
theorem C8_mode_exclusion :
    (∀ (env : FnEnv) (st : GState),
        (applyModeOp env st .startDict).passive = false ∧
        (applyModeOp env st .startDict).dictation = true) ∧
    (∀ (env : FnEnv) (st : GState) (op : ModeOp),
        ¬ (st.passive = true ∧ st.dictation = true) →
        ¬ (op = ModeOp.startPassive ∧ st.dictation = true) →
        ¬ ((applyModeOp env st op).passive = true ∧
            (applyModeOp env st op).dictation = true)) ∧
    (∀ (env : FnEnv) (ops : List ModeOp) (st : GState),
        ¬ (st.passive = true ∧ st.dictation = true) →
        (∀ pre op suf, ops = pre ++ op :: suf → op = ModeOp.startPassive →
          (pre.foldl (applyModeOp env) st).dictation = false) →
        ¬ (((ops.foldl (applyModeOp env) st).passive = true) ∧
            ((ops.foldl (applyModeOp env) st).dictation = true))) := by
  have hstep : ∀ (env : FnEnv) (st : GState) (op : ModeOp),
      ¬ (st.passive = true ∧ st.dictation = true) →
      ¬ (op = ModeOp.startPassive ∧ st.dictation = true) →
      ¬ ((applyModeOp env st op).passive = true ∧
          (applyModeOp env st op).dictation = true) := by
    intro env st op h1 h2
    cases op with
    | startVisual => exact h1
    | stopVisual => exact h1
    | mute => exact h1
    | unmute => exact h1
    | startPassive =>
      intro hc
      exact h2 ⟨rfl, hc.2⟩
    | stopPassive =>
      intro hc
      rw [show applyModeOp env st .stopPassive = {st with passive := false} from rfl] at hc
      exact absurd hc.1 (by simp)
    | startDict =>
      intro hc
      rw [applyModeOp_startDict] at hc
      exact absurd hc.1 (by simp)
    | stopDict =>
      intro hc
      rw [show applyModeOp env st .stopDict =
        {st with dictation := false, dictOpen := false, dictPathSet := false,
                 dictLines := 0} from rfl] at hc
      exact absurd hc.2 (by simp)
  refine ⟨fun env st => ⟨rfl, rfl⟩, hstep, ?_⟩
  intro env ops
  induction ops with
  | nil => intro st h1 h2; exact h1
  | cons op ops ih =>
    intro st h1 h2
    simp only [List.foldl_cons]
    apply ih
    · exact hstep env st op h1 (fun hc =>
        by
          have := h2 [] op ops rfl hc.1
          simp only [List.foldl_nil] at this
          rw [this] at hc
          exact absurd hc.2 (by simp))
    · intro pre op' suf heq hop
      have := h2 (op :: pre) op' suf (by rw [heq, List.cons_append]) hop
      simpa using this

/-- **C8, witness** — concrete instances: the single-step preservation at
a passive-only state under `start_dictation`, and the trace invariant for
the trace `[start_dictation]` from the initial state. -/
theorem C8_mode_exclusion_witness :
    (¬ (({passive := true} : GState).passive = true ∧
        ({passive := true} : GState).dictation = true)) ∧
    (¬ ((applyModeOp trivialEnv {passive := true} .startDict).passive = true ∧
        (applyModeOp trivialEnv {passive := true} .startDict).dictation = true)) ∧
    (¬ ((([ModeOp.startDict] : List ModeOp).foldl
          (applyModeOp trivialEnv) {}).passive = true ∧
        (([ModeOp.startDict] : List ModeOp).foldl
          (applyModeOp trivialEnv) {}).dictation = true)) := by
  have h1 : ¬ (({passive := true} : GState).passive = true ∧
      ({passive := true} : GState).dictation = true) := by decide
  have hside : ∀ pre op suf, ([ModeOp.startDict] : List ModeOp) = pre ++ op :: suf →
      op = ModeOp.startPassive →
      (pre.foldl (applyModeOp trivialEnv) ({} : GState)).dictation = false := by
    intro pre op suf h hop
    cases pre with
    | nil =>
      simp only [List.nil_append, List.cons.injEq] at h
      exact absurd (h.1.trans hop) (by decide)
    | cons x pre' =>
      simp only [List.cons_append, List.cons.injEq] at h
      exact absurd h.2 (by simp)
  refine ⟨h1, ?_, ?_⟩
  · exact C8_mode_exclusion.2.1 trivialEnv {passive := true} .startDict h1
      (fun hc => by exact absurd hc.2 (by decide))
  · exact C8_mode_exclusion.2.2 trivialEnv [ModeOp.startDict] {} (by decide) hside

/-! ## Step lemmas for the conversation loop -/

/-- An empty capture in plain active mode below the idle threshold: no
events, the idle counter increments. -/
theorem stepCycle_idle (cfg : LoopCfg) (s : LState)
    (hq : cfg.quiet = false) (hm : cfg.hasMic = true)
    (hmu : s.g.muted = false) (hpa : s.g.passive = false)
    (hdi : s.g.dictation = false) (hvi : s.g.visual = false)
    (hac : s.active = true)
    (hidle : s.idle + 1 < IDLE_CYCLES_BEFORE_INACTIVE) :
    stepCycle cfg s [] = ([], {s with idle := s.idle + 1}, .next) := by
  unfold stepCycle
  simp [hq, hm, hmu, hpa, hdi, hvi, hac, normalizeUtterance, pyStrip, pyLower,
    stripPunct, silenceArtifacts, Nat.not_le_of_lt hidle]

/-- The 25th consecutive empty capture: the loop announces sleep, fires
`on_sleep(True)`, clears the idle counter and deactivates. -/
theorem stepCycle_idle_sleep (cfg : LoopCfg) (s : LState)
    (hq : cfg.quiet = false) (hm : cfg.hasMic = true)
    (hmu : s.g.muted = false) (hpa : s.g.passive = false)
    (hdi : s.g.dictation = false) (hvi : s.g.visual = false)
    (hac : s.active = true)
    (hidle : s.idle + 1 ≥ IDLE_CYCLES_BEFORE_INACTIVE) :
    stepCycle cfg s [] =
      (sleepEvents cfg.name, {s with active := false, idle := 0}, .next) := by
  unfold stepCycle
  simp [hq, hm, hmu, hpa, hdi, hvi, hac, normalizeUtterance, pyStrip, pyLower,
    stripPunct, silenceArtifacts, hidle]

/-- An active turn whose backend response carries no function-call
objects: one backend call, the speech is spoken, and nothing else
happens. -/
theorem activeTurn_noCalls (cfg : LoopCfg) (s : LState) (text : Str)
    (hpre : cfg.prePrompt = none)
    (hjson : (parseResponse (cfg.gen text)).2 = []) :
    activeTurn cfg s text =
      ([.backend text, .display text (cfg.gen text),
        .say (parseResponse (cfg.gen text)).1, endStatus cfg], s, .next) := by
  unfold activeTurn
  rw [hpre]
  simp [hjson]

/-- A non-empty, non-artifact utterance handled in plain active mode with
a call-free backend response. -/
theorem stepCycle_active_noCalls (cfg : LoopCfg) (s : LState) (raw : Str)
    (hq : cfg.quiet = false) (hm : cfg.hasMic = true)
    (hmu : s.g.muted = false) (hpa : s.g.passive = false)
    (hdi : s.g.dictation = false) (hac : s.active = true)
    (hpre : cfg.prePrompt = none)
    (hne : (normalizeUtterance raw).isEmpty = false)
    (hart : silenceArtifacts.contains (normalizeUtterance raw) = false)
    (hjson : (parseResponse (cfg.gen (normalizeUtterance raw))).2 = []) :
    stepCycle cfg s raw =
      ([.status (ls "Processing..."), .backend (normalizeUtterance raw),
        .display (normalizeUtterance raw) (cfg.gen (normalizeUtterance raw)),
        .say (parseResponse (cfg.gen (normalizeUtterance raw))).1, endStatus cfg],
       {s with idle := 0, lastVisual := s.clock}, .next) := by
  unfold stepCycle
  simp [hq, hm, hmu, hpa, hdi, hac, hne, hart]
  rw [activeTurn_noCalls cfg _ _ hpre hjson]
  have hart2 : ¬ (normalizeUtterance raw ∈ silenceArtifacts) := by simpa using hart
  rw [if_neg hart2]

/-- Unfolding one continuing cycle of the loop. -/
theorem runLoop_cons_next (cfg : LoopCfg) (s : LState) {s2 : LState}
    (t : Str) (rest : List (Option Str)) {evs : List Event}
    (h : stepCycle cfg {s with clock := s.clock + 1} t = (evs, s2, .next)) :
    runLoop cfg s (some t :: rest) =
      (evs ++ (runLoop cfg s2 rest).1, (runLoop cfg s2 rest).2) := by
  simp only [runLoop, h]

/-- Running `n` consecutive empty captures in plain active mode, where
the `n`-th reaches the idle threshold: no events until the threshold,
then the sleep transition fires exactly once; the loop deactivates and
the idle counter is reset. -/
theorem runLoop_idle_sleep (cfg : LoopCfg) :
    ∀ (n : Nat) (s : LState),
    cfg.quiet = false → cfg.hasMic = true →
    s.g.muted = false → s.g.passive = false →
    s.g.dictation = false → s.g.visual = false →
    s.active = true →
    1 ≤ n → s.idle + n = IDLE_CYCLES_BEFORE_INACTIVE →
    runLoop cfg s (List.replicate n (some [])) =
      (sleepEvents cfg.name,
       {s with active := false, idle := 0, clock := s.clock + n}) := by
  intro n
  induction n with
  | zero => intro s _ _ _ _ _ _ _ h1 _; omega
  | succ k ih =>
    intro s hq hm hmu hpa hdi hvi hac h1 hsum
    rw [List.replicate_succ]
    cases k with
    | zero =>
      have hstep := stepCycle_idle_sleep cfg {s with clock := s.clock + 1}
        hq hm hmu hpa hdi hvi hac (by simp [IDLE_CYCLES_BEFORE_INACTIVE] at hsum ⊢; omega)
      rw [runLoop_cons_next cfg s [] (List.replicate 0 (some [])) hstep]
      simp [runLoop]
    | succ k' =>
      have hstep := stepCycle_idle cfg {s with clock := s.clock + 1}
        hq hm hmu hpa hdi hvi hac (by simp [IDLE_CYCLES_BEFORE_INACTIVE] at hsum ⊢; omega)
      rw [runLoop_cons_next cfg s [] (List.replicate (k' + 1) (some [])) hstep]
      have hih := ih {s with clock := s.clock + 1, idle := s.idle + 1}
        hq hm hmu hpa hdi hvi hac (by omega)
        (by simp [IDLE_CYCLES_BEFORE_INACTIVE] at hsum ⊢; omega)
      show ([] ++ (runLoop cfg {s with clock := s.clock + 1, idle := s.idle + 1}
              (List.replicate (k' + 1) (some []))).1,
            (runLoop cfg {s with clock := s.clock + 1, idle := s.idle + 1}
              (List.replicate (k' + 1) (some []))).2) = _
      rw [hih]
      simp only [List.nil_append]
      simp
      omega

/-! ## C6: the idle-to-sleep scenario -/

/-- **C6** — With idle threshold 25 and visual mode off, on the input
stream `["hello iris", "", "", ..., (25th) ""]`, as long as the backend
reply to the greeting carries no function calls: exactly one backend call
is made (for the greeting — none for any of the 25 empty inputs),
`on_sleep(True)` fires exactly once (after the 25th consecutive empty
input), and immediately afterwards the mode is Sleeping with the idle
counter reset to 0. -/
theorem C6_idle_to_sleep :
    ∀ (gen : Str → Str) (env : FnEnv) (dc : Nat → Str),
      (parseResponse (gen (ls "hello iris"))).2 = [] →
      backendPrompts (runLoop (mkLoopCfg gen env dc) initLState c6inputs).1 =
        [ls "hello iris"] ∧
      sleepSignals (runLoop (mkLoopCfg gen env dc) initLState c6inputs).1 =
        [true] ∧
      (runLoop (mkLoopCfg gen env dc) initLState c6inputs).2.active = false ∧
      (runLoop (mkLoopCfg gen env dc) initLState c6inputs).2.idle = 0 := by
  intro gen env dc hjson
  have hstep := stepCycle_active_noCalls (mkLoopCfg gen env dc)
    {initLState with clock := initLState.clock + 1} (ls "hello iris")
    rfl rfl rfl rfl rfl rfl rfl (by decide) (by decide) hjson
  simp only [c6inputs]
  rw [runLoop_cons_next (mkLoopCfg gen env dc) initLState (ls "hello iris")
    (List.replicate 25 (some [])) hstep]
  rw [runLoop_idle_sleep (mkLoopCfg gen env dc) 25]
  · exact ⟨rfl, rfl, rfl, rfl⟩
  all_goals first | rfl | decide

/-- **C6, witness** — the scenario run with the concrete backend that
always answers `ok`. -/
theorem C6_idle_to_sleep_witness :
    (parseResponse ((fun _ => ls "ok") (ls "hello iris"))).2 = [] ∧
    backendPrompts (runLoop (mkLoopCfg (fun _ => ls "ok") trivialEnv (fun _ => []))
        initLState c6inputs).1 = [ls "hello iris"] ∧
    sleepSignals (runLoop (mkLoopCfg (fun _ => ls "ok") trivialEnv (fun _ => []))
        initLState c6inputs).1 = [true] ∧
    (runLoop (mkLoopCfg (fun _ => ls "ok") trivialEnv (fun _ => []))
        initLState c6inputs).2.active = false ∧
    (runLoop (mkLoopCfg (fun _ => ls "ok") trivialEnv (fun _ => []))
        initLState c6inputs).2.idle = 0 := by
  have h := C6_idle_to_sleep (fun _ => ls "ok") trivialEnv (fun _ => []) (by rfl)
  exact ⟨by rfl, h.1, h.2.1, h.2.2.1, h.2.2.2⟩

/-! ## C7: the passive-mode scenario -/

/-- A non-wake utterance in passive mode: it is appended to the buffer
and counted; nothing else happens, and the idle counter stays 0. -/
theorem stepCycle_passive_nowake (cfg : LoopCfg) (s : LState) (raw : Str)
    (hq : cfg.quiet = false) (hm : cfg.hasMic = true)
    (hname : cfg.name = ls "Iris")
    (hmu : s.g.muted = false) (hpa : s.g.passive = true)
    (hac : s.active = true) (hvi : s.g.visual = false)
    (hne : (normalizeUtterance raw).isEmpty = false)
    (hnwake : is_wake_word (ls "Iris") (normalizeUtterance raw) = false) :
    stepCycle cfg s raw =
      ([.status (ls "Passive mode (" ++
          natStr (s.passiveBuffer ++ [normalizeUtterance raw]).length ++ ls " lines)")],
       {s with passiveBuffer := s.passiveBuffer ++ [normalizeUtterance raw],
               idle := 0}, .next) := by
  unfold stepCycle passiveCycle
  rw [hname] at *
  simp [hq, hm, hmu, hpa, hac, hvi, hne, hnwake]

/-- A wake-word utterance in passive mode whose backend response carries
no function calls: the line is buffered and counted first, the buffer
(including the wake line itself) becomes the overheard context of a
single backend call, and the buffer is empty afterwards. -/
theorem stepCycle_passive_wake_noCalls (cfg : LoopCfg) (s : LState) (raw : Str)
    (hq : cfg.quiet = false) (hm : cfg.hasMic = true)
    (hname : cfg.name = ls "Iris")
    (hmu : s.g.muted = false) (hpa : s.g.passive = true)
    (hac : s.active = true)
    (hne : (normalizeUtterance raw).isEmpty = false)
    (hwake : is_wake_word (ls "Iris") (normalizeUtterance raw) = true)
    (hjson : (parseResponse (cfg.gen (passivePrompt
        (joinSep (ls "\n") (s.passiveBuffer ++ [normalizeUtterance raw]))))).2 = []) :
    stepCycle cfg s raw =
      ([.status (ls "Passive mode (" ++
          natStr (s.passiveBuffer ++ [normalizeUtterance raw]).length ++ ls " lines)"),
        .status (ls "Processing..."),
        .backend (passivePrompt
          (joinSep (ls "\n") (s.passiveBuffer ++ [normalizeUtterance raw]))),
        .display (ls "[conversation] " ++ normalizeUtterance raw)
          (cfg.gen (passivePrompt
            (joinSep (ls "\n") (s.passiveBuffer ++ [normalizeUtterance raw])))),
        .say (parseResponse (cfg.gen (passivePrompt
          (joinSep (ls "\n") (s.passiveBuffer ++ [normalizeUtterance raw]))))).1,
        .status (ls "Passive mode (0 lines)")],
       {s with passiveBuffer := [], idle := 0}, .next) := by
  unfold stepCycle passiveCycle
  rw [hname] at *
  simp [hq, hm, hmu, hpa, hac, hne, hwake, hjson, hname]

set_option maxRecDepth 100000 in
set_option maxHeartbeats 4000000 in
/-- **C7, counterexample** — In passive mode on the utterances
`"the sky is blue"` then `"iris what's up"` (with the backend answering
plain `ok`), the single backend call's prompt embeds **both** buffered
lines as the overheard context — the wake utterance is appended to the
buffer before the context is built — not "exactly the first line" as
claimed.  (The buffer is empty afterwards.) -/
theorem C7_counterexample :
    backendPrompts (runLoop c7cfg passiveInitLState c7inputs).1 =
      [passivePrompt (ls "the sky is blue" ++ '\n' :: ls "iris whats up")] ∧
    backendPrompts (runLoop c7cfg passiveInitLState c7inputs).1 ≠
      [passivePrompt (ls "the sky is blue")] ∧
    strContains (ls "iris whats up")
      (passivePrompt (ls "the sky is blue" ++ '\n' :: ls "iris whats up")) = true ∧
    (runLoop c7cfg passiveInitLState c7inputs).2.passiveBuffer = [] := by
  refine ⟨by decide, by decide, by decide, by decide⟩

set_option maxRecDepth 100000 in
set_option maxHeartbeats 4000000 in
/-- **C7, amended** — In Passive mode on the utterances
`"the sky is blue"` (no wake word) then `"iris what's up"` (wake word,
assistant name `Iris`), provided the backend reply carries no function
calls: exactly one backend call is issued, its prompt embeds the overheard
context consisting of both buffered lines — the first line **and** the
wake utterance itself, joined by a newline (the code appends the current
utterance to the buffer before building the context) — and the
PassiveBuffer is empty immediately afterwards. -/
theorem C7_passive_context :
    ∀ (gen : Str → Str) (env : FnEnv) (dc : Nat → Str),
      (parseResponse (gen (passivePrompt
          (ls "the sky is blue" ++ '\n' :: ls "iris whats up")))).2 = [] →
      backendPrompts (runLoop (mkLoopCfg gen env dc) passiveInitLState c7inputs).1 =
        [passivePrompt (ls "the sky is blue" ++ '\n' :: ls "iris whats up")] ∧
      (runLoop (mkLoopCfg gen env dc) passiveInitLState c7inputs).2.passiveBuffer =
        [] := by
  intro gen env dc hjson
  have h1 : stepCycle (mkLoopCfg gen env dc)
      {passiveInitLState with clock := passiveInitLState.clock + 1}
      (ls "the sky is blue") =
      ([.status (ls "Passive mode (1 lines)")], c7s2, .next) := by
    rw [stepCycle_passive_nowake (mkLoopCfg gen env dc)
      {passiveInitLState with clock := passiveInitLState.clock + 1}
      (ls "the sky is blue") rfl rfl rfl rfl rfl rfl rfl (by decide) (by decide)]
    rfl
  have h2 : stepCycle (mkLoopCfg gen env dc)
      {c7s2 with clock := c7s2.clock + 1} (ls "iris what\x27s up") =
      ([.status (ls "Passive mode (2 lines)"),
        .status (ls "Processing..."),
        .backend (passivePrompt (ls "the sky is blue" ++ '\n' :: ls "iris whats up")),
        .display (ls "[conversation] iris whats up")
          (gen (passivePrompt (ls "the sky is blue" ++ '\n' :: ls "iris whats up"))),
        .say (parseResponse (gen (passivePrompt
          (ls "the sky is blue" ++ '\n' :: ls "iris whats up")))).1,
        .status (ls "Passive mode (0 lines)")],
       c7s3, .next) := by
    rw [stepCycle_passive_wake_noCalls (mkLoopCfg gen env dc)
      {c7s2 with clock := c7s2.clock + 1} (ls "iris what\x27s up")
      rfl rfl rfl rfl rfl rfl (by decide) (by decide) hjson]
    rfl
  simp only [c7inputs]
  rw [runLoop_cons_next (mkLoopCfg gen env dc) passiveInitLState
    (ls "the sky is blue") [some (ls "iris what\x27s up")] h1]
  rw [runLoop_cons_next (mkLoopCfg gen env dc) c7s2
    (ls "iris what\x27s up") [] h2]
  exact ⟨rfl, rfl⟩

/-- **C7 (amended), witness** — the scenario run with the concrete
backend that always answers `ok`. -/
theorem C7_passive_context_witness :
    (parseResponse ((fun _ => ls "ok") (passivePrompt
        (ls "the sky is blue" ++ '\n' :: ls "iris whats up")))).2 = [] ∧
    backendPrompts (runLoop (mkLoopCfg (fun _ => ls "ok") trivialEnv (fun _ => []))
        passiveInitLState c7inputs).1 =
      [passivePrompt (ls "the sky is blue" ++ '\n' :: ls "iris whats up")] ∧
    (runLoop (mkLoopCfg (fun _ => ls "ok") trivialEnv (fun _ => []))
        passiveInitLState c7inputs).2.passiveBuffer = [] := by
  have h := C7_passive_context (fun _ => ls "ok") trivialEnv (fun _ => []) (by rfl)
  exact ⟨by rfl, h.1, h.2⟩

end Iris
